import Mathlib

/-!
# gonfig: command-line flag resolution (`flags.go`) and file decoding

A shallow embedding of `createFlagSet`, `printHelpAndExit`, `initFlags`,
`parseFlags` and `lookupConfigFileFlag`, together with the part of the flag
library they call.  Go's in-place mutation of the `setup` is modelled by explicit
state passing; `panic`, runtime faults and `os.Exit` are explicit endings.

A Go string that reaches the program from outside (an identifier, a default
literal, a value on the command line) is a Lean `String`, read as its UTF-8 bytes
(`goBytes`).  What the code cuts out of a string is a sequence of bytes, as a cut
may fall inside a character; so the string given to `setValueByString` is a sequence
of bytes.
-/

namespace Gonfig

/-! ## Data model -/

/-- The `reflect.Kind` structure of a field's type, as far as `createFlagSet`
inspects it: the kind itself and, for a slice, the kind of its elements. -/
inductive GoType where
  | bool
  | int
  | uint8
  | float64
  | string
  | struct
  | slice (elem : GoType)
  deriving DecidableEq, Repr

/-- The bytes of a Go string: `len` is the length of this list, and an index or a
slice expression addresses its elements. -/
def goBytes (s : String) : List UInt8 :=
  s.data.flatMap String.utf8EncodeChar

/-- The content of the struct field behind an option's `reflect.Value`. -/
inductive Val where
  | bool (b : Bool)
  | int (i : Int)
  | str (s : List UInt8)
  | bytes (bs : List UInt8)
  | strs (xs : List (List UInt8))
  deriving DecidableEq, Repr

/-- The fields of `option` that `flags.go` reads.  `fullID` holds the result of the
method `fullID()`, `typ` the result of `value.Type()`, `value` the content of the
field the option points at. -/
structure option where
  id : String
  fullID : String
  short : String
  defaul : String
  desc : String
  isParent : Bool
  isSlice : Bool
  typ : GoType
  value : Val
  deriving DecidableEq, Repr

/-- The fields of `Conf` that `flags.go` reads. -/
structure Conf where
  HelpDisable : Bool
  HelpMessage : String
  HelpDescription : String
  deriving DecidableEq, Repr

/-! ## The flag library, as far as `flags.go` uses it -/

/-- The three kinds of flag value that `createFlagSet` registers.  A string-slice
value remembers whether it was set before, as `Set` replaces the default the first
time and appends afterwards. -/
inductive FlagValue where
  | boolValue (b : Bool)
  | stringValue (s : String)
  | stringSliceValue (xs : List String) (changed : Bool)
  deriving DecidableEq, Repr

/-- One registered flag. -/
structure Flag where
  Name : String
  Shorthand : String
  Usage : String
  Value : FlagValue
  Changed : Bool
  deriving DecidableEq, Repr

/-- A flag set: its name, the `SortFlags` switch, and the flags in the order of
their registration. -/
structure FlagSet where
  name : String
  SortFlags : Bool
  formal : List Flag
  deriving DecidableEq, Repr

/-- What the code takes from its surroundings: the process arguments, the library
functions whose bodies are not part of `flags.go`, and the coercion
`setValueByString`.  The command line `args` is `os.Args[1:]` already split into
pairs of a long flag name and a string value, in the order given.
`setValueByString` takes the bytes of its string argument and yields the new
content of the option's field, or an error; the field is written only on success. -/
structure Env where
  args0 : String
  args : List (String × String)
  pathBase : String → String
  readAsCSV : String → Except String (List String)
  writeAsCSV : List String → String
  flagUsages : FlagSet → String
  setValueByString : option → List UInt8 → Except String Val

/-- The run-scoped context: the configuration, every option of the tree in order,
and the flag set, `none` until `initFlags` has stored one. -/
structure setup where
  conf : Conf
  allOpts : List option
  flagSet : Option FlagSet
  deriving DecidableEq, Repr

def defaultHelpDescription : String := "print this help menu"

/-- The constant `defaultHelpMessage` with its placeholder `__EXEC__` replaced once
by `exec`, as `strings.Replace(defaultHelpMessage, "__EXEC__", exec, 1)` does. -/
def defaultHelpMessageFor (exec : String) : String := "Usage of " ++ exec ++ ":"

/-- `pflag.NewFlagSet(name, pflag.ContinueOnError)`: the empty flag set. -/
def NewFlagSet (name : String) : FlagSet := ⟨name, true, []⟩

/-- `AddFlag`, through which every flag is registered; an error is the message of
its panic.  It refuses a name that is registered already; it then appends the flag,
and refuses a shorthand of more than one byte and a shorthand that a registered flag
uses already.  An empty shorthand is no shorthand. -/
def FlagSet.AddFlag (f : FlagSet) (flag : Flag) : Except String FlagSet :=
  if f.formal.any (fun fl => fl.Name == flag.Name) then
    .error (f.name ++ " flag redefined: " ++ flag.Name)
  else if flag.Shorthand = "" then
    .ok { f with formal := f.formal ++ [flag] }
  else if (goBytes flag.Shorthand).length > 1 then
    .error (flag.Shorthand ++ " shorthand is more than one ASCII character")
  else if f.formal.any (fun fl => fl.Shorthand == flag.Shorthand) then
    .error ("unable to redefine " ++ flag.Shorthand ++ " shorthand in " ++ f.name ++
      " flagset: it is already used")
  else
    .ok { f with formal := f.formal ++ [flag] }

/-- `BoolP`: register a boolean flag. -/
def FlagSet.BoolP (f : FlagSet) (name shorthand : String) (value : Bool)
    (usage : String) : Except String FlagSet :=
  f.AddFlag ⟨name, shorthand, usage, .boolValue value, false⟩

/-- `StringP`: register a string flag. -/
def FlagSet.StringP (f : FlagSet) (name shorthand : String) (value : String)
    (usage : String) : Except String FlagSet :=
  f.AddFlag ⟨name, shorthand, usage, .stringValue value, false⟩

/-- `StringSliceP`: register a string-slice flag. -/
def FlagSet.StringSliceP (f : FlagSet) (name shorthand : String) (value : List String)
    (usage : String) : Except String FlagSet :=
  f.AddFlag ⟨name, shorthand, usage, .stringSliceValue value false, false⟩

/-- `Lookup`: the flag of that name, `none` (Go's `nil`) when there is none. -/
def FlagSet.Lookup (f : FlagSet) (name : String) : Option Flag :=
  f.formal.find? (fun fl => fl.Name == name)

/-- `Changed`: whether the flag of that name was set while parsing; false for a
name that is not registered. -/
def FlagSet.Changed (f : FlagSet) (name : String) : Bool :=
  match f.Lookup name with
  | none => false
  | some fl => fl.Changed

/-- `Value.String()`: the string form of a flag's value. -/
def valueString (env : Env) : FlagValue → String
  | .boolValue b => if b then "true" else "false"
  | .stringValue s => s
  | .stringSliceValue xs _ => "[" ++ env.writeAsCSV xs ++ "]"

/-- `strconv.ParseBool`. -/
def parseBool (s : String) : Option Bool :=
  if s ∈ ["1", "t", "T", "TRUE", "true", "True"] then some true
  else if s ∈ ["0", "f", "F", "FALSE", "false", "False"] then some false
  else none

/-- `Value.Set`: store a string given on the command line into a flag's value. -/
def FlagValue.Set (env : Env) (v : FlagValue) (val : String) : Except String FlagValue :=
  match v with
  | .boolValue _ =>
    match parseBool val with
    | some b => .ok (.boolValue b)
    | none => .error ("strconv.ParseBool: parsing " ++ val ++ ": invalid syntax")
  | .stringValue _ => .ok (.stringValue val)
  | .stringSliceValue xs changed =>
    match env.readAsCSV val with
    | .error err => .error err
    | .ok ys => .ok (.stringSliceValue (if changed then xs ++ ys else ys) true)

/-- Set the first flag named `name` in a list of flags to `val`; `none` when no
flag has that name. -/
def setFlag (env : Env) (name val : String) : List Flag → Option (Except String (List Flag))
  | [] => none
  | fl :: rest =>
    if fl.Name == name then
      match fl.Value.Set env val with
      | .error err =>
        some (.error ("invalid argument " ++ val ++ " for flag " ++ name ++ ": " ++ err))
      | .ok v => some (.ok ({ fl with Value := v, Changed := true } :: rest))
    else
      match setFlag env name val rest with
      | none => none
      | some (.error err) => some (.error err)
      | some (.ok rest1) => some (.ok (fl :: rest1))

/-- `Parse`: apply the command line to the flag set, one pair after the other.
The flag set keeps what was stored before the first failure (`ContinueOnError`);
the second component is the error, `none` for success. -/
def FlagSet.Parse (env : Env) (f : FlagSet) : List (String × String) → FlagSet × Option String
  | [] => (f, none)
  | (name, val) :: rest =>
    match setFlag env name val f.formal with
    | none => (f, some ("unknown flag: " ++ name))
    | some (.error err) => (f, some err)
    | some (.ok formal1) => FlagSet.Parse env { f with formal := formal1 } rest

/-! ## Endings and runs -/

deriving instance DecidableEq for Except

/-- How a call ends: it returns a result, the process exits with a status, or the
call panics (an explicit `panic` or a runtime fault). -/
inductive Ending (α : Type) where
  | returned (a : α)
  | exited (code : Nat)
  | panicked (msg : String)
  deriving DecidableEq, Repr

/-- What a call leaves behind: the setup as mutated so far, the lines printed, the
invocations of `setValueByString` in order (the option as it was, and the string
passed), and the ending. -/
structure Run (α : Type) where
  s : setup
  stdout : List String
  calls : List (option × List UInt8)
  ending : Ending α
  deriving DecidableEq, Repr

/-- The runtime fault of reading a field through a `nil` pointer. -/
def nilDereference : String := "invalid memory address or nil pointer dereference"

/-- The runtime fault of a slice expression whose bounds are out of range. -/
def sliceBounds : String := "slice bounds out of range"

/-! ## `flags.go` -/

/-- The message of the panic in `createFlagSet`. -/
def sliceDefaultPanic (opt : option) (err : String) : String :=
  "error parsing default value '" ++ opt.defaul ++ "' for slice variable " ++
    opt.fullID ++ ": " ++ err

/-- The loop of `createFlagSet` over `s.allOpts`; an error is the message of a
panic, of `createFlagSet` itself or of the registration. -/
def registerOpts (env : Env) : List option → FlagSet → Except String FlagSet
  | [], flagSet => .ok flagSet
  | opt :: rest, flagSet =>
    if opt.isParent then
      registerOpts env rest flagSet
    else
      match opt.typ with
      | .bool =>
        let def_ : Bool := if opt.defaul = "true" then true else false
        match flagSet.BoolP opt.fullID opt.short def_ opt.desc with
        | .error msg => .error msg
        | .ok flagSet1 => registerOpts env rest flagSet1
      | .slice elem =>
        if elem = .uint8 then
          match flagSet.StringP opt.fullID opt.short opt.defaul opt.desc with
          | .error msg => .error msg
          | .ok flagSet1 => registerOpts env rest flagSet1
        else
          match env.readAsCSV opt.defaul with
          | .error err => .error (sliceDefaultPanic opt err)
          | .ok defSlice =>
            match flagSet.StringSliceP opt.fullID opt.short defSlice opt.desc with
            | .error msg => .error msg
            | .ok flagSet1 => registerOpts env rest flagSet1
      | _ =>
        match flagSet.StringP opt.fullID opt.short opt.defaul opt.desc with
        | .error msg => .error msg
        | .ok flagSet1 => registerOpts env rest flagSet1

/-- `createFlagSet` builds the flagset for the options in the setup; an error is
the message of a panic. -/
def createFlagSet (env : Env) (s : setup) : Except String FlagSet :=
  let flagSet : FlagSet := { NewFlagSet env.args0 with SortFlags := false }
  match registerOpts env s.allOpts flagSet with
  | .error msg => .error msg
  | .ok flagSet =>
    if !s.conf.HelpDisable then
      let desc := if s.conf.HelpDescription = "" then defaultHelpDescription
        else s.conf.HelpDescription
      flagSet.BoolP "help" "h" false desc
    else
      .ok flagSet

/-- `printHelpAndExit` prints the help message and exits the program. -/
def printHelpAndExit {α : Type} (env : Env) (s : setup) : Run α :=
  let message := if s.conf.HelpMessage = "" then defaultHelpMessageFor (env.pathBase env.args0)
    else s.conf.HelpMessage
  match s.flagSet with
  | none => ⟨s, [message], [], .panicked nilDereference⟩
  | some flagSet => ⟨s, [message, env.flagUsages flagSet], [], .exited 2⟩

/-- `initFlags` initializes the flagset and stores it; when called a second time,
it just returns nil.  The result is the returned error, `none` for nil. -/
def initFlags (env : Env) (s : setup) : Run (Option String) :=
  match s.flagSet with
  | some _ => ⟨s, [], [], .returned none⟩
  | none =>
    match createFlagSet env s with
    | .error msg => ⟨s, [], [], .panicked msg⟩
    | .ok created =>
      let parsed := created.Parse env env.args
      let s1 : setup := { s with flagSet := some parsed.1 }
      match parsed.2 with
      | some err => ⟨s1, [], [], .returned (some err)⟩
      | none =>
        match parsed.1.Lookup "help" with
        | none => ⟨s1, [], [], .panicked nilDereference⟩
        | some help =>
          if help.Changed then printHelpAndExit env s1
          else ⟨s1, [], [], .returned none⟩

/-- The slice expression `stringValue[1 : len(stringValue)-1]`, on the bytes of the
string; `none` is the runtime fault for a string of fewer than two bytes. -/
def trimBrackets (stringValue : String) : Option (List UInt8) :=
  if (goBytes stringValue).length < 2 then none
  else some (((goBytes stringValue).drop 1).take ((goBytes stringValue).length - 2))

/-- The message of the error that `parseFlags` returns. -/
def flagError (opt : option) (err : String) : String :=
  "error parsing flag " ++ opt.fullID ++ ": " ++ err

/-- What the loop of `parseFlags` leaves behind: the options with the values
written so far, the invocations of `setValueByString`, and the ending. -/
structure LoopRun where
  opts : List option
  calls : List (option × List UInt8)
  ending : Ending (Option String)
  deriving DecidableEq, Repr

/-- The loop of `parseFlags` over `s.allOpts`. -/
def flagLoop (env : Env) (flagSet : FlagSet) : List option → LoopRun
  | [] => ⟨[], [], .returned none⟩
  | opt :: rest =>
    if opt.isParent then
      let r := flagLoop env flagSet rest
      ⟨opt :: r.opts, r.calls, r.ending⟩
    else if !flagSet.Changed opt.fullID then
      let r := flagLoop env flagSet rest
      ⟨opt :: r.opts, r.calls, r.ending⟩
    else
      match flagSet.Lookup opt.fullID with
      | none => ⟨opt :: rest, [], .panicked nilDereference⟩
      | some flag =>
        let stringValue := valueString env flag.Value
        match (if opt.isSlice then trimBrackets stringValue
            else some (goBytes stringValue)) with
        | none => ⟨opt :: rest, [], .panicked sliceBounds⟩
        | some stringValue =>
          match env.setValueByString opt stringValue with
          | .error err => ⟨opt :: rest, [(opt, stringValue)], .returned (some (flagError opt err))⟩
          | .ok v =>
            let r := flagLoop env flagSet rest
            ⟨{ opt with value := v } :: r.opts, (opt, stringValue) :: r.calls, r.ending⟩

/-- `parseFlags` parses the command line flags for all config options and writes
the values that have been found in place. -/
def parseFlags (env : Env) (s : setup) : Run (Option String) :=
  let r := initFlags env s
  match r.ending with
  | .returned (some err) => ⟨r.s, r.stdout, r.calls, .returned (some err)⟩
  | .exited code => ⟨r.s, r.stdout, r.calls, .exited code⟩
  | .panicked msg => ⟨r.s, r.stdout, r.calls, .panicked msg⟩
  | .returned none =>
    match r.s.flagSet with
    | none => ⟨r.s, r.stdout, r.calls, .panicked nilDereference⟩
    | some flagSet =>
      let l := flagLoop env flagSet r.s.allOpts
      ⟨{ r.s with allOpts := l.opts }, r.stdout, r.calls ++ l.calls, l.ending⟩

/-- `lookupConfigFileFlag` looks for the config file in the command line flags. -/
def lookupConfigFileFlag (env : Env) (s : setup) (configOpt : option) :
    Run (String × Option String) :=
  let r := initFlags env s
  match r.ending with
  | .returned (some err) => ⟨r.s, r.stdout, r.calls, .returned ("", some err)⟩
  | .exited code => ⟨r.s, r.stdout, r.calls, .exited code⟩
  | .panicked msg => ⟨r.s, r.stdout, r.calls, .panicked msg⟩
  | .returned none =>
    match r.s.flagSet with
    | none => ⟨r.s, r.stdout, r.calls, .panicked nilDereference⟩
    | some flagSet =>
      match flagSet.Lookup configOpt.id with
      | none => ⟨r.s, r.stdout, r.calls, .panicked nilDereference⟩
      | some flag => ⟨r.s, r.stdout, r.calls, .returned (valueString env flag.Value, none)⟩

/-! ## A sample environment, for evaluating the code on concrete inputs -/

/-- Split a line at its commas; `cur` is the field read so far, in reverse. -/
def splitCommas : List Char → List Char → List String
  | [], cur => [⟨cur.reverse⟩]
  | c :: rest, cur =>
    if c = ',' then ⟨cur.reverse⟩ :: splitCommas rest [] else splitCommas rest (c :: cur)

/-- A CSV reader for lines without quoted fields: the empty line is the empty
record, a line with a double quote is rejected. -/
def sampleReadAsCSV (s : String) : Except String (List String) :=
  if s = "" then .ok []
  else if '"' ∈ s.data then .error "bare quote in non-quoted field"
  else .ok (splitCommas s.data [])

/-- A CSV writer for fields without commas or quotes. -/
def sampleWriteAsCSV (xs : List String) : String := ",".intercalate xs

/-- The decimal number that a list of digits stands for. -/
def digitsValue (cs : List UInt8) : Nat :=
  cs.foldl (fun n c => 10 * n + (c.toNat - 48)) 0

/-- Split bytes at the commas; `cur` is the field read so far, in reverse. -/
def splitByteCommas : List UInt8 → List UInt8 → List (List UInt8)
  | [], cur => [cur.reverse]
  | c :: rest, cur =>
    if c = 44 then cur.reverse :: splitByteCommas rest [] else splitByteCommas rest (c :: cur)

/-- The text of a sequence of bytes, one character for each byte. -/
def quoteBytes (s : List UInt8) : String :=
  ⟨s.map (fun b => Char.ofNat b.toNat)⟩

/-- A coercion by the kind of the field: the booleans `true` and `false`, integers
from decimal digits, strings and byte slices as they stand, string slices split at
the commas.  Its errors quote the string that was rejected. -/
def sampleSetValueByString (opt : option) (s : List UInt8) : Except String Val :=
  match opt.typ with
  | .bool =>
    if s = goBytes "true" then .ok (.bool true)
    else if s = goBytes "false" then .ok (.bool false)
    else .error ("cannot parse " ++ quoteBytes s ++ " as bool")
  | .int =>
    if s ≠ [] ∧ s.all (fun c => 48 ≤ c ∧ c ≤ 57) then .ok (.int (digitsValue s))
    else .error ("cannot parse " ++ quoteBytes s ++ " as int")
  | .slice .uint8 => .ok (.bytes s)
  | .slice _ => if s = [] then .ok (.strs []) else .ok (.strs (splitByteCommas s []))
  | _ => .ok (.str s)

/-- The sample environment for the command line `args`. -/
def sampleEnv (args : List (String × String)) : Env where
  args0 := "/usr/bin/app"
  args := args
  pathBase := fun _ => "app"
  readAsCSV := sampleReadAsCSV
  writeAsCSV := sampleWriteAsCSV
  flagUsages := fun flagSet => "\n".intercalate (flagSet.formal.map (fun fl => fl.Name))
  setValueByString := sampleSetValueByString

/-- The sample environment with a coercion whose errors do not quote the string
that was rejected. -/
def terseEnv (args : List (String × String)) : Env :=
  { sampleEnv args with
    setValueByString := fun opt s =>
      match sampleSetValueByString opt s with
      | .ok v => .ok v
      | .error _ => .error "invalid syntax" }

/-- A string option `host` with default `localhost`. -/
def hostOpt : option :=
  ⟨"host", "host", "", "localhost", "the host", false, false, .string,
    .str (goBytes "localhost")⟩

/-- An integer option `port` with default `8080`. -/
def portOpt : option :=
  ⟨"port", "port", "p", "8080", "the port", false, false, .int, .int 8080⟩

/-- A byte-slice option `key`, marked as a slice. -/
def keyOpt : option :=
  ⟨"key", "key", "k", "", "the key", false, true, .slice .uint8, .bytes []⟩

/-- A string-slice option `tags`. -/
def tagsOpt : option :=
  ⟨"tags", "tags", "t", "a,b", "the tags", false, true, .slice .string,
    .strs [goBytes "a", goBytes "b"]⟩

/-- A parent option `db` and its child, the configuration-file option `db.config`. -/
def dbOpt : option :=
  ⟨"db", "db", "", "", "", true, false, .struct, .str []⟩

def dbConfigOpt : option :=
  ⟨"config", "db.config", "", "db.toml", "the file", false, false, .string,
    .str (goBytes "db.toml")⟩

/-- A string option `proxy` with the short alias of `port`. -/
def proxyOpt : option :=
  ⟨"proxy", "proxy", "p", "", "the proxy", false, false, .string, .str []⟩

/-- A boolean option whose identifier is that of the reserved help flag. -/
def helpOpt : option :=
  ⟨"help", "help", "", "false", "more help", false, false, .bool, .bool false⟩

/-- A configuration with everything left at its zero value. -/
def defaultConf : Conf := ⟨false, "", ""⟩

/-- A string-slice option whose default literal has a bare quote. -/
def brokenTagsOpt : option :=
  ⟨"tags", "tags", "t", "a\"b", "the tags", false, true, .slice .string, .strs []⟩

/-- A byte-slice option whose default literal has a bare quote. -/
def quotedKeyOpt : option :=
  ⟨"key", "key", "k", "a\"b", "the key", false, true, .slice .uint8, .bytes []⟩

/-! ## File decoding -/

/-- The decoding modes that `file_test.go` selects through `Conf.FileDecoder`. -/
inductive Decoder where
  | DecoderJSON
  | DecoderYAML
  | DecoderTOML
  | DecoderTryAll
  deriving DecidableEq, Repr

/-- The three structural decoders, each from the content of a file to a generic
tree of type `τ` or to its failure reason. -/
structure Decoders (τ : Type) where
  json : String → Except String τ
  yaml : String → Except String τ
  toml : String → Except String τ

/-- The errors of `parseFile`: the file could not be read; the one decoder of a
fixed mode failed (its reason, wrapped with the path of the file); every decoder of
the try-all mode failed (the name and the reason of each, in the order tried). -/
inductive FileError where
  | access (path reason : String)
  | decode (path reason : String)
  | tryAll (path : String) (reasons : List (String × String))
  deriving DecidableEq, Repr

/-- Modelled from the spec: `parseFile`, whose body is not among the source files
(only its tests are), as far as decoding goes.  It reads the file at
`s.configFilePath` (`path`), a failure of which is an error of its own, and decodes
the content as `s.conf.FileDecoder` (`mode`) tells: in a fixed mode with the one
named decoder, whose error is returned wrapped with the path; in the try-all mode
with JSON, then YAML, then TOML, returning the first success, or else an error that
lists the failure reason of every decoder. -/
def parseFile {τ : Type} (readFile : String → Except String String) (dec : Decoders τ)
    (path : String) (mode : Decoder) : Except FileError τ :=
  match readFile path with
  | .error reason => .error (.access path reason)
  | .ok content =>
    match mode with
    | .DecoderJSON =>
      match dec.json content with
      | .ok tree => .ok tree
      | .error reason => .error (.decode path reason)
    | .DecoderYAML =>
      match dec.yaml content with
      | .ok tree => .ok tree
      | .error reason => .error (.decode path reason)
    | .DecoderTOML =>
      match dec.toml content with
      | .ok tree => .ok tree
      | .error reason => .error (.decode path reason)
    | .DecoderTryAll =>
      match dec.json content with
      | .ok tree => .ok tree
      | .error jsonReason =>
        match dec.yaml content with
        | .ok tree => .ok tree
        | .error yamlReason =>
          match dec.toml content with
          | .ok tree => .ok tree
          | .error tomlReason =>
            .error (.tryAll path
              [("json", jsonReason), ("yaml", yamlReason), ("toml", tomlReason)])

/-- The decoder that a fixed mode names. -/
def Decoders.named {τ : Type} (dec : Decoders τ) : Decoder → Option (String → Except String τ)
  | .DecoderJSON => some dec.json
  | .DecoderYAML => some dec.yaml
  | .DecoderTOML => some dec.toml
  | .DecoderTryAll => none

/-- Sample decoders to a list of keys and values: each accepts a single text. -/
def sampleDecoders : Decoders (List (String × String)) where
  json := fun content =>
    if content = "\x7b\"key\": \"value\"\x7d" then .ok [("key", "value")]
    else .error "invalid character in JSON"
  yaml := fun content =>
    if content = "key: value" then .ok [("key", "value")] else .error "yaml: cannot unmarshal"
  toml := fun content =>
    if content = "key = \"value\"" then .ok [("key", "value")] else .error "toml: expected value"

/-- A sample file system with two files. -/
def sampleReadFile (path : String) : Except String String :=
  if path = "/etc/app.yaml" then .ok "key: value"
  else if path = "/etc/app.conf" then .ok "&$_@"
  else .error "no such file or directory"


/-! ## Vocabulary of the statements -/

/-- The kind of a registered flag. -/
inductive FlagKind where
  | boolFlag
  | stringFlag
  | stringSliceFlag
  deriving DecidableEq, Repr

def FlagValue.kind : FlagValue → FlagKind
  | .boolValue _ => .boolFlag
  | .stringValue _ => .stringFlag
  | .stringSliceValue _ _ => .stringSliceFlag

/-- The options that are bound to a flag: those that are not parents. -/
def nonParents (opts : List option) : List option :=
  opts.filter (fun opt => !opt.isParent)

/-- A non-parent option whose field is a slice of non-byte elements and whose
default literal the CSV reader rejects. -/
def badSliceDefault (env : Env) (opt : option) : Prop :=
  opt.isParent = false ∧
    ∃ elem, opt.typ = .slice elem ∧ elem ≠ .uint8 ∧ ∃ err, env.readAsCSV opt.defaul = .error err

/-- The flag `fl` is what the loop of `createFlagSet` registers for `opt`. -/
def Registered (env : Env) (opt : option) (fl : Flag) : Prop :=
  fl.Name = opt.fullID ∧ fl.Shorthand = opt.short ∧ fl.Usage = opt.desc ∧ fl.Changed = false ∧
    (opt.typ = .bool → fl.Value = .boolValue (decide (opt.defaul = "true"))) ∧
    (∀ elem, opt.typ = .slice elem → elem ≠ .uint8 →
      ∃ xs, env.readAsCSV opt.defaul = .ok xs ∧ fl.Value = .stringSliceValue xs false) ∧
    (opt.typ ≠ .bool → (∀ elem, opt.typ = .slice elem → elem = .uint8) →
      fl.Value = .stringValue opt.defaul)

/-- The option is bound to a flag and that flag was given on the command line. -/
def explicitlySet (flagSet : FlagSet) (opt : option) : Bool :=
  !opt.isParent && flagSet.Changed opt.fullID

/-- The bytes of the string form of the value of the option's flag, without the
first and the last byte for an option marked `isSlice`; `none` when there is no such
flag or the string is too short to be cut. -/
def passedString (env : Env) (flagSet : FlagSet) (opt : option) : Option (List UInt8) :=
  match flagSet.Lookup opt.fullID with
  | none => none
  | some flag =>
    if opt.isSlice then trimBrackets (valueString env flag.Value)
    else some (goBytes (valueString env flag.Value))

/-- What the loop of `parseFlags` makes of an option it has gone past: an option
that is not explicitly set is as it was; an explicitly set one was coerced with
success from the string of its flag and holds the value of the coercion. -/
def Coerced (env : Env) (flagSet : FlagSet) (opt opt1 : option) : Prop :=
  if explicitlySet flagSet opt = true then
    ∃ v w, passedString env flagSet opt = some v ∧ env.setValueByString opt v = .ok w ∧
      opt1 = { opt with value := w }
  else opt1 = opt

/-- The name and the shorthand of every flag that `createFlagSet` is to register,
in the order of registration. -/
def flagKeys (s : setup) : List (String × String) :=
  (nonParents s.allOpts).map (fun opt => (opt.fullID, opt.short)) ++
    (if s.conf.HelpDisable then [] else [("help", "h")])

/-- No registration is refused: the names differ from each other, the shorthands
that are not empty differ from each other, and no shorthand has more than one
byte. -/
def noClash (keys : List (String × String)) : Prop :=
  (keys.map Prod.fst).Nodup ∧
    ((keys.map Prod.snd).filter (fun sh => sh ≠ "")).Nodup ∧
    ∀ k ∈ keys, (goBytes k.2).length ≤ 1

instance (keys : List (String × String)) : Decidable (noClash keys) := by
  unfold noClash
  infer_instance

/-- The reserved help flag as `createFlagSet` registers it. -/
def helpFlag (conf : Conf) : Flag :=
  ⟨"help", "h", if conf.HelpDescription = "" then defaultHelpDescription else conf.HelpDescription,
    .boolValue false, false⟩

/-- The loop of `createFlagSet` on a flag set and the registration of one more
flag. -/
def thenRegister (env : Env) (rest : List option) (flagSet : FlagSet) (fl : Flag) :
    Except String FlagSet :=
  match flagSet.AddFlag fl with
  | .error msg => .error msg
  | .ok flagSet1 => registerOpts env rest flagSet1

/-! ## Lemmas on `createFlagSet` -/

theorem registered_bool (env : Env) (opt : option) (h : opt.typ = .bool) :
    Registered env opt
      ⟨opt.fullID, opt.short, opt.desc, .boolValue (if opt.defaul = "true" then true else false),
        false⟩ := by
  refine ⟨rfl, rfl, rfl, rfl, ?_, ?_, ?_⟩
  · intro _
    by_cases hd : opt.defaul = "true" <;> simp [hd]
  · intro elem he
    rw [h] at he
    cases he
  · intro hn
    exact absurd h hn

theorem registered_string (env : Env) (opt : option) (hb : opt.typ ≠ .bool)
    (hs : ∀ elem, opt.typ = .slice elem → elem = .uint8) :
    Registered env opt ⟨opt.fullID, opt.short, opt.desc, .stringValue opt.defaul, false⟩ := by
  refine ⟨rfl, rfl, rfl, rfl, ?_, ?_, ?_⟩
  · intro h
    exact absurd h hb
  · intro elem he hne
    exact absurd (hs elem he) hne
  · intro _ _
    rfl

theorem registered_slice (env : Env) (opt : option) (elem : GoType) (xs : List String)
    (ht : opt.typ = .slice elem) (hne : elem ≠ .uint8) (hcsv : env.readAsCSV opt.defaul = .ok xs) :
    Registered env opt ⟨opt.fullID, opt.short, opt.desc, .stringSliceValue xs false, false⟩ := by
  refine ⟨rfl, rfl, rfl, rfl, ?_, ?_, ?_⟩
  · intro h
    rw [ht] at h
    cases h
  · intro elem1 _ _
    exact ⟨xs, hcsv, rfl⟩
  · intro _ hs
    exact absurd (hs elem ht) hne

/-- The three ways in which the loop of `createFlagSet` treats its next option: it
skips a parent, it panics on a slice default, or it registers a flag. -/
theorem registerOpts_cons (env : Env) (opt : option) (rest : List option) (flagSet : FlagSet) :
    (opt.isParent = true ∧
        registerOpts env (opt :: rest) flagSet = registerOpts env rest flagSet) ∨
    (opt.isParent = false ∧ badSliceDefault env opt ∧
        ∃ err, env.readAsCSV opt.defaul = .error err ∧
          registerOpts env (opt :: rest) flagSet = .error (sliceDefaultPanic opt err)) ∨
    (opt.isParent = false ∧ ¬ badSliceDefault env opt ∧
        ∃ fl, Registered env opt fl ∧
          registerOpts env (opt :: rest) flagSet = thenRegister env rest flagSet fl) := by
  cases hp : opt.isParent
  · right
    cases ht : opt.typ with
    | slice elem =>
      by_cases he : elem = .uint8
      · right
        refine ⟨rfl, ?_, _, registered_string env opt (by simp [ht]) ?_, ?_⟩
        · rintro ⟨_, elem1, h1, hne, _⟩
          rw [ht] at h1
          cases h1
          exact hne he
        · intro elem1 h1
          rw [ht] at h1
          cases h1
          exact he
        · simp [registerOpts, hp, ht, he, FlagSet.StringP, thenRegister]
      · cases hcsv : env.readAsCSV opt.defaul with
        | error err =>
          left
          exact ⟨rfl, ⟨hp, elem, ht, he, err, hcsv⟩, err, rfl, by simp [registerOpts, hp, ht, he, hcsv]⟩
        | ok xs =>
          right
          refine ⟨rfl, ?_, _, registered_slice env opt elem xs ht he hcsv, ?_⟩
          · rintro ⟨_, _, _, _, err, herr⟩
            rw [hcsv] at herr
            cases herr
          · simp [registerOpts, hp, ht, he, hcsv, FlagSet.StringSliceP, thenRegister]
    | bool =>
      right
      refine ⟨rfl, ?_, _, registered_bool env opt ht, ?_⟩
      · rintro ⟨_, elem1, h1, _⟩
        rw [ht] at h1
        cases h1
      · simp [registerOpts, hp, ht, FlagSet.BoolP, thenRegister]
    | _ =>
      right
      refine ⟨rfl, ?_, _, registered_string env opt (by simp [ht]) (by simp [ht]), ?_⟩
      · rintro ⟨_, elem1, h1, _⟩
        rw [ht] at h1
        cases h1
      · simp [registerOpts, hp, ht, FlagSet.StringP, thenRegister]
  · left
    exact ⟨rfl, by simp [registerOpts, hp]⟩

theorem except_cases {ε α : Type} (x : Except ε α) :
    (∃ e, x = .error e) ∨ ∃ a, x = .ok a := by
  cases x with
  | error e => exact Or.inl ⟨e, rfl⟩
  | ok a => exact Or.inr ⟨a, rfl⟩

/-- A registration that succeeds appends the flag. -/
theorem addFlag_ok (f : FlagSet) (fl : Flag) (f1 : FlagSet) (h : f.AddFlag fl = .ok f1) :
    f1 = { f with formal := f.formal ++ [fl] } := by
  unfold FlagSet.AddFlag at h
  split at h
  · cases h
  · split at h
    · cases h
      rfl
    · split at h
      · cases h
      · split at h
        · cases h
        · cases h
          rfl

/-- A registration is refused only where names or shorthands clash. -/
theorem addFlag_error (f : FlagSet) (fl : Flag) (msg : String)
    (tail : List (String × String)) (h : f.AddFlag fl = .error msg) :
    ¬ noClash (f.formal.map (fun x => (x.Name, x.Shorthand)) ++ (fl.Name, fl.Shorthand) :: tail) := by
  rintro ⟨hnames, hshorts, hlen⟩
  unfold FlagSet.AddFlag at h
  split at h
  · rename_i hany
    obtain ⟨x, hx, hxn⟩ := List.any_eq_true.mp hany
    have hxn1 : x.Name = fl.Name := by simpa using hxn
    rw [List.map_append, List.nodup_append] at hnames
    have h1 : fl.Name ∈ List.map Prod.fst (f.formal.map (fun x => (x.Name, x.Shorthand))) := by
      simp only [List.map_map, List.mem_map, Function.comp]
      exact ⟨x, hx, hxn1⟩
    have h2 : fl.Name ∈ List.map Prod.fst ((fl.Name, fl.Shorthand) :: tail) := by
      simp
    exact hnames.2.2 h1 h2
  · split at h
    · cases h
    · rename_i hsh
      split at h
      · rename_i hl
        have := hlen (fl.Name, fl.Shorthand) (by simp)
        simp only at this
        omega
      · split at h
        · rename_i hany
          obtain ⟨x, hx, hxs⟩ := List.any_eq_true.mp hany
          have hxs1 : x.Shorthand = fl.Shorthand := by simpa using hxs
          rw [List.map_append, List.filter_append, List.nodup_append] at hshorts
          have h1 : fl.Shorthand ∈ List.filter (fun sh => decide (sh ≠ ""))
              (List.map Prod.snd (f.formal.map (fun x => (x.Name, x.Shorthand)))) := by
            simp only [List.map_map, List.mem_filter, List.mem_map, Function.comp]
            exact ⟨⟨x, hx, hxs1⟩, by simpa using hsh⟩
          have h2 : fl.Shorthand ∈ List.filter (fun sh => decide (sh ≠ ""))
              (List.map Prod.snd ((fl.Name, fl.Shorthand) :: tail)) := by
            simp [hsh]
          exact hshorts.2.2 h1 h2
        · cases h

theorem nonParents_cons_parent (opt : option) (rest : List option) (h : opt.isParent = true) :
    nonParents (opt :: rest) = nonParents rest := by
  simp [nonParents, h]

theorem nonParents_cons_leaf (opt : option) (rest : List option) (h : opt.isParent = false) :
    nonParents (opt :: rest) = opt :: nonParents rest := by
  simp [nonParents, h]

/-- When the loop of `createFlagSet` completes, it has appended one flag per
non-parent option, in order, and nothing else. -/
theorem registerOpts_ok (env : Env) (opts : List option) :
    ∀ (flagSet result : FlagSet), registerOpts env opts flagSet = .ok result →
      result.name = flagSet.name ∧ result.SortFlags = flagSet.SortFlags ∧
        ∃ added, result.formal = flagSet.formal ++ added ∧
          List.Forall₂ (Registered env) (nonParents opts) added := by
  induction opts with
  | nil =>
    intro flagSet result h
    simp [registerOpts] at h
    subst h
    exact ⟨rfl, rfl, [], by simp, by simp [nonParents]⟩
  | cons opt rest ih =>
    intro flagSet result h
    rcases registerOpts_cons env opt rest flagSet with ⟨hp, heq⟩ | ⟨_, _, err, _, heq⟩ |
      ⟨hp, _, fl, hreg, heq⟩
    · rw [heq] at h
      rw [nonParents_cons_parent opt rest hp]
      exact ih flagSet result h
    · rw [heq] at h
      cases h
    · rw [heq] at h
      unfold thenRegister at h
      rcases except_cases (flagSet.AddFlag fl) with ⟨msg, hadd⟩ | ⟨flagSet1, hadd⟩
      · rw [hadd] at h
        cases h
      · rw [hadd] at h
        have h1 := addFlag_ok flagSet fl flagSet1 hadd
        subst h1
        obtain ⟨hn, hsf, added, hform, hall⟩ := ih _ result h
        refine ⟨hn, hsf, fl :: added, ?_, ?_⟩
        · simpa using hform
        · rw [nonParents_cons_leaf opt rest hp]
          exact List.Forall₂.cons hreg hall

/-- When the loop of `createFlagSet` panics, it is on an unparsable slice default,
with the message that names the default and the identifier, or a registration was
refused. -/
theorem registerOpts_error (env : Env) (opts : List option) :
    ∀ (flagSet : FlagSet) (msg : String), registerOpts env opts flagSet = .error msg →
      (∃ opt ∈ opts, badSliceDefault env opt ∧
        ∃ err, env.readAsCSV opt.defaul = .error err ∧ msg = sliceDefaultPanic opt err) ∨
      ¬ noClash (flagSet.formal.map (fun x => (x.Name, x.Shorthand)) ++
        (nonParents opts).map (fun o => (o.fullID, o.short))) := by
  induction opts with
  | nil =>
    intro flagSet msg h
    simp [registerOpts] at h
  | cons opt rest ih =>
    intro flagSet msg h
    rcases registerOpts_cons env opt rest flagSet with ⟨hp, heq⟩ | ⟨_, hbad, err, herr, heq⟩ |
      ⟨hp, _, fl, hreg, heq⟩
    · rw [heq] at h
      rw [nonParents_cons_parent opt rest hp]
      rcases ih flagSet msg h with ⟨o, ho, hrest⟩ | hclash
      · exact Or.inl ⟨o, List.mem_cons_of_mem _ ho, hrest⟩
      · exact Or.inr hclash
    · rw [heq] at h
      cases h
      exact Or.inl ⟨opt, List.mem_cons_self _ _, hbad, err, herr, rfl⟩
    · rw [heq] at h
      rw [nonParents_cons_leaf opt rest hp]
      unfold thenRegister at h
      rcases except_cases (flagSet.AddFlag fl) with ⟨msg1, hadd⟩ | ⟨flagSet1, hadd⟩
      · right
        have hc := addFlag_error flagSet fl msg1
          ((nonParents rest).map (fun o => (o.fullID, o.short))) hadd
        rw [hreg.1, hreg.2.1] at hc
        simpa using hc
      · rw [hadd] at h
        have h1 := addFlag_ok flagSet fl flagSet1 hadd
        subst h1
        rcases ih _ msg h with ⟨o, ho, hrest⟩ | hclash
        · exact Or.inl ⟨o, List.mem_cons_of_mem _ ho, hrest⟩
        · right
          simpa [hreg.1, hreg.2.1] using hclash

/-- The registered flags carry the identifiers and the short aliases of their
options. -/
theorem registered_keys (env : Env) {opts : List option} {flags : List Flag}
    (h : List.Forall₂ (Registered env) opts flags) :
    flags.map (fun x => (x.Name, x.Shorthand)) = opts.map (fun o => (o.fullID, o.short)) := by
  induction h with
  | nil => rfl
  | cons hab _ ih =>
    simp only [List.map_cons, ih, hab.1, hab.2.1]

theorem noClash_of_append (l t : List (String × String)) (h : noClash (l ++ t)) :
    noClash l := by
  obtain ⟨h1, h2, h3⟩ := h
  refine ⟨?_, ?_, ?_⟩
  · rw [List.map_append] at h1
    exact (List.nodup_append.mp h1).1
  · rw [List.map_append, List.filter_append] at h2
    exact (List.nodup_append.mp h2).1
  · intro k hk
    exact h3 k (List.mem_append_left _ hk)

/-- `createFlagSet` is its loop, followed by the registration of the help flag
unless that is disabled. -/
theorem createFlagSet_eq (env : Env) (s : setup) :
    createFlagSet env s =
      match registerOpts env s.allOpts ⟨env.args0, false, []⟩ with
      | .error msg => .error msg
      | .ok result =>
        if s.conf.HelpDisable then .ok result else result.AddFlag (helpFlag s.conf) := by
  unfold createFlagSet
  simp only [NewFlagSet]
  cases registerOpts env s.allOpts ⟨env.args0, false, []⟩ with
  | error msg => rfl
  | ok result =>
    cases hd : s.conf.HelpDisable <;> simp [hd, FlagSet.BoolP, helpFlag]

/-- The flag set that `createFlagSet` returns: the flags of the loop, followed by
the help flag unless it is disabled. -/
theorem createFlagSet_ok (env : Env) (s : setup) (flagSet : FlagSet)
    (h : createFlagSet env s = .ok flagSet) :
    ∃ optFlags, List.Forall₂ (Registered env) (nonParents s.allOpts) optFlags ∧
      flagSet.formal = optFlags ++ (if s.conf.HelpDisable then [] else [helpFlag s.conf]) := by
  rw [createFlagSet_eq] at h
  rcases except_cases (registerOpts env s.allOpts ⟨env.args0, false, []⟩) with
    ⟨msg, hreg⟩ | ⟨result, hreg⟩
  · rw [hreg] at h
    cases h
  · rw [hreg] at h
    obtain ⟨_, _, added, hform, hall⟩ := registerOpts_ok env s.allOpts _ result hreg
    have hform1 : result.formal = added := by simpa using hform
    refine ⟨added, hall, ?_⟩
    cases hd : s.conf.HelpDisable
    · simp only [hd] at h
      have h1 := addFlag_ok result (helpFlag s.conf) flagSet (by simpa using h)
      subst h1
      simp [hform1]
    · simp only [hd, if_true, Except.ok.injEq] at h
      subst h
      simp [hform1]

/-- When `createFlagSet` panics, it is on an unparsable slice default, with the
message that names the default and the identifier, or a registration was refused. -/
theorem createFlagSet_error (env : Env) (s : setup) (msg : String)
    (h : createFlagSet env s = .error msg) :
    (∃ opt ∈ s.allOpts, badSliceDefault env opt ∧
      ∃ err, env.readAsCSV opt.defaul = .error err ∧ msg = sliceDefaultPanic opt err) ∨
    ¬ noClash (flagKeys s) := by
  rw [createFlagSet_eq] at h
  rcases except_cases (registerOpts env s.allOpts ⟨env.args0, false, []⟩) with
    ⟨msg1, hreg⟩ | ⟨result, hreg⟩
  · rw [hreg] at h
    simp only [Except.error.injEq] at h
    subst h
    rcases registerOpts_error env s.allOpts _ msg1 hreg with hbad | hclash
    · exact Or.inl hbad
    · right
      intro hno
      apply hclash
      simpa using noClash_of_append _ _ hno
  · rw [hreg] at h
    obtain ⟨_, _, added, hform, hall⟩ := registerOpts_ok env s.allOpts _ result hreg
    have hform1 : result.formal = added := by simpa using hform
    right
    cases hd : s.conf.HelpDisable
    · simp only [hd] at h
      have hc := addFlag_error result (helpFlag s.conf) msg [] (by simpa using h)
      rw [hform1, registered_keys env hall] at hc
      simpa [flagKeys, hd, helpFlag] using hc
    · simp [hd] at h

theorem forall₂_exists_of_mem {α β : Type} {R : α → β → Prop} {l₁ : List α} {l₂ : List β}
    (h : List.Forall₂ R l₁ l₂) : ∀ a ∈ l₁, ∃ b ∈ l₂, R a b := by
  induction h with
  | nil =>
    intro a ha
    cases ha
  | cons hab _ ih =>
    intro a ha
    rcases List.mem_cons.mp ha with rfl | ha
    · exact ⟨_, List.mem_cons_self _ _, hab⟩
    · obtain ⟨b, hb, hr⟩ := ih a ha
      exact ⟨b, List.mem_cons_of_mem _ hb, hr⟩

/-- Where an option has an unparsable slice default, `createFlagSet` panics. -/
theorem createFlagSet_error_of_bad (env : Env) (s : setup)
    (h : ∃ opt ∈ s.allOpts, badSliceDefault env opt) :
    ∃ msg, createFlagSet env s = .error msg := by
  obtain ⟨opt, ho, hbad⟩ := h
  rcases except_cases (createFlagSet env s) with hc | ⟨flagSet, hc⟩
  · exact hc
  · exfalso
    obtain ⟨optFlags, hall, _⟩ := createFlagSet_ok env s flagSet hc
    obtain ⟨hp, elem, ht, hne, err, herr⟩ := hbad
    have hmem : opt ∈ nonParents s.allOpts := by
      simp [nonParents, ho, hp]
    obtain ⟨fl, _, hreg⟩ := forall₂_exists_of_mem hall opt hmem
    obtain ⟨xs, hxs, _⟩ := hreg.2.2.2.2.2.1 elem ht hne
    rw [herr] at hxs
    cases hxs

/-! ## Claims on `createFlagSet` -/

/-- C3: the flags that `createFlagSet` returns are one flag per non-parent option,
in the order of `allOpts`, followed only by the reserved help flag (unless it is
disabled); the flag of an option carries the option's `fullID` and short alias, and is
a boolean flag for a bool field, a string-slice flag for a slice of non-byte
elements, and a string flag for every other kind, byte slices included. -/
theorem createFlagSet_registers (env : Env) (s : setup) (flagSet : FlagSet)
    (h : createFlagSet env s = .ok flagSet) :
    ∃ optFlags,
      flagSet.formal = optFlags ++ (if s.conf.HelpDisable then [] else [helpFlag s.conf]) ∧
      optFlags.length = (s.allOpts.filter (fun opt => !opt.isParent)).length ∧
      List.Forall₂
        (fun opt fl =>
          fl.Name = opt.fullID ∧ fl.Shorthand = opt.short ∧
          (opt.typ = .bool → fl.Value.kind = .boolFlag) ∧
          (∀ elem, opt.typ = .slice elem → elem ≠ .uint8 → fl.Value.kind = .stringSliceFlag) ∧
          (opt.typ = .slice .uint8 → fl.Value.kind = .stringFlag) ∧
          (opt.typ ≠ .bool → (∀ elem, opt.typ ≠ .slice elem) → fl.Value.kind = .stringFlag))
        (s.allOpts.filter (fun opt => !opt.isParent)) optFlags := by
  obtain ⟨optFlags, hall, hform⟩ := createFlagSet_ok env s flagSet h
  refine ⟨optFlags, hform, ?_, ?_⟩
  · exact (List.Forall₂.length_eq hall).symm
  · refine List.Forall₂.imp ?_ hall
    rintro opt fl ⟨hn, hs, _, _, hb, hsl, hst⟩
    refine ⟨hn, hs, ?_, ?_, ?_, ?_⟩
    · intro ht
      rw [hb ht]
      rfl
    · intro elem ht hne
      obtain ⟨xs, _, hv⟩ := hsl elem ht hne
      rw [hv]
      rfl
    · intro ht
      rw [hst (by simp [ht]) (by intro elem he; rw [ht] at he; cases he; rfl)]
      rfl
    · intro hnb hns
      rw [hst hnb (fun elem he => absurd he (hns elem))]
      rfl

/-- C3, at a concrete setup: a parent, its child, a byte slice and a string
slice. -/
theorem createFlagSet_registers_witness :
    ∃ optFlags,
      [(⟨"db.config", "", "the file", .stringValue "db.toml", false⟩ : Flag),
        ⟨"key", "k", "the key", .stringValue "", false⟩,
        ⟨"tags", "t", "the tags", .stringSliceValue ["a", "b"] false, false⟩,
        ⟨"help", "h", "print this help menu", .boolValue false, false⟩] =
        optFlags ++ [helpFlag defaultConf] ∧
      optFlags.length = 3 ∧
      List.Forall₂
        (fun opt fl =>
          fl.Name = opt.fullID ∧ fl.Shorthand = opt.short ∧
          (opt.typ = .bool → fl.Value.kind = .boolFlag) ∧
          (∀ elem, opt.typ = .slice elem → elem ≠ .uint8 → fl.Value.kind = .stringSliceFlag) ∧
          (opt.typ = .slice .uint8 → fl.Value.kind = .stringFlag) ∧
          (opt.typ ≠ .bool → (∀ elem, opt.typ ≠ .slice elem) → fl.Value.kind = .stringFlag))
        [dbConfigOpt, keyOpt, tagsOpt] optFlags :=
  createFlagSet_registers (sampleEnv []) ⟨defaultConf, [dbOpt, dbConfigOpt, keyOpt, tagsOpt], none⟩
    ⟨"/usr/bin/app", false,
      [⟨"db.config", "", "the file", .stringValue "db.toml", false⟩,
        ⟨"key", "k", "the key", .stringValue "", false⟩,
        ⟨"tags", "t", "the tags", .stringSliceValue ["a", "b"] false, false⟩,
        ⟨"help", "h", "print this help menu", .boolValue false, false⟩]⟩
    (by decide)

/-- C7, as stated, fails: with `port` and `proxy` sharing the shorthand `p` ahead of
a string-slice option whose default does not parse, `createFlagSet` panics in the
registration of `proxy`, with a message that names neither the default nor the slice
option; and with an option named `help` it panics although no slice default is
unparsable. -/
theorem createFlagSet_refused_registration :
    createFlagSet (sampleEnv []) ⟨defaultConf, [portOpt, proxyOpt, brokenTagsOpt], none⟩ =
      .error "unable to redefine p shorthand in /usr/bin/app flagset: it is already used" ∧
    brokenTagsOpt.isParent = false ∧ brokenTagsOpt.typ = .slice .string ∧
    (sampleEnv []).readAsCSV brokenTagsOpt.defaul = .error "bare quote in non-quoted field" ∧
    createFlagSet (sampleEnv []) ⟨defaultConf, [hostOpt, helpOpt], none⟩ =
      .error "/usr/bin/app flag redefined: help" ∧
    hostOpt.typ = .string ∧ helpOpt.typ = .bool := by
  decide

/-- C7, amended: where no registration is refused (the names of the flags differ,
the non-empty shorthands differ and have one byte), `createFlagSet` panics if and
only if some non-parent option whose field is a slice of non-byte elements has a
default literal that `readAsCSV` rejects, and the panic message names that default and
the option's `fullID`.  In every setup such a default ends in a panic, and every
panic is that one or a refused registration.  When `createFlagSet` returns, the flag
of each such option holds the sequence `readAsCSV` yields for its default literal, and
the flag of a byte-slice option holds its default literal as it stands. -/
theorem createFlagSet_panics_iff (env : Env) (s : setup) :
    (noClash (flagKeys s) →
      ((∃ msg, createFlagSet env s = .error msg) ↔
        ∃ opt ∈ s.allOpts, opt.isParent = false ∧
          ∃ elem, opt.typ = .slice elem ∧ elem ≠ .uint8 ∧
            ∃ err, env.readAsCSV opt.defaul = .error err) ∧
      (∀ msg, createFlagSet env s = .error msg →
        ∃ opt ∈ s.allOpts, opt.isParent = false ∧
          (∃ elem, opt.typ = .slice elem ∧ elem ≠ .uint8) ∧
          ∃ err, env.readAsCSV opt.defaul = .error err ∧
            msg = "error parsing default value '" ++ opt.defaul ++ "' for slice variable " ++
              opt.fullID ++ ": " ++ err)) ∧
    ((∃ opt ∈ s.allOpts, opt.isParent = false ∧
        ∃ elem, opt.typ = .slice elem ∧ elem ≠ .uint8 ∧
          ∃ err, env.readAsCSV opt.defaul = .error err) →
      ∃ msg, createFlagSet env s = .error msg) ∧
    (∀ msg, createFlagSet env s = .error msg →
      (∃ opt ∈ s.allOpts, opt.isParent = false ∧
        (∃ elem, opt.typ = .slice elem ∧ elem ≠ .uint8) ∧
        ∃ err, env.readAsCSV opt.defaul = .error err ∧
          msg = "error parsing default value '" ++ opt.defaul ++ "' for slice variable " ++
            opt.fullID ++ ": " ++ err) ∨
      ¬ noClash (flagKeys s)) ∧
    (∀ flagSet, createFlagSet env s = .ok flagSet →
      ∃ optFlags,
        flagSet.formal = optFlags ++ (if s.conf.HelpDisable then [] else [helpFlag s.conf]) ∧
        List.Forall₂
          (fun opt fl =>
            (∀ elem, opt.typ = .slice elem → elem ≠ .uint8 →
              ∃ xs, env.readAsCSV opt.defaul = .ok xs ∧ fl.Value = .stringSliceValue xs false) ∧
            (opt.typ = .slice .uint8 → fl.Value = .stringValue opt.defaul))
          (s.allOpts.filter (fun opt => !opt.isParent)) optFlags) := by
  have hmsg : ∀ msg, createFlagSet env s = .error msg →
      (∃ opt ∈ s.allOpts, opt.isParent = false ∧
        (∃ elem, opt.typ = .slice elem ∧ elem ≠ .uint8) ∧
        ∃ err, env.readAsCSV opt.defaul = .error err ∧
          msg = "error parsing default value '" ++ opt.defaul ++ "' for slice variable " ++
            opt.fullID ++ ": " ++ err) ∨
      ¬ noClash (flagKeys s) := by
    intro msg h
    rcases createFlagSet_error env s msg h with
      ⟨opt, ho, ⟨hp, elem, ht, hne, _⟩, err, herr, hm⟩ | hclash
    · exact Or.inl ⟨opt, ho, hp, ⟨elem, ht, hne⟩, err, herr, hm⟩
    · exact Or.inr hclash
  refine ⟨?_, createFlagSet_error_of_bad env s, hmsg, ?_⟩
  · intro hno
    refine ⟨⟨?_, createFlagSet_error_of_bad env s⟩, ?_⟩
    · rintro ⟨msg, h⟩
      rcases hmsg msg h with ⟨opt, ho, hp, ⟨elem, ht, hne⟩, err, herr, _⟩ | hclash
      · exact ⟨opt, ho, hp, elem, ht, hne, err, herr⟩
      · exact absurd hno hclash
    · intro msg h
      rcases hmsg msg h with hbad | hclash
      · exact hbad
      · exact absurd hno hclash
  · intro flagSet h
    obtain ⟨optFlags, hall, hform⟩ := createFlagSet_ok env s flagSet h
    refine ⟨optFlags, hform, List.Forall₂.imp ?_ hall⟩
    rintro opt fl ⟨_, _, _, _, _, hsl, hst⟩
    refine ⟨hsl, ?_⟩
    intro ht
    exact hst (by simp [ht]) (by intro elem he; rw [ht] at he; cases he; rfl)

/-- C7, amended, at concrete setups without a clash: an unparsable string-slice
default makes `createFlagSet` panic with the message that names it, the same literal
as the default of a byte slice does not. -/
theorem createFlagSet_panics_iff_witness :
    noClash (flagKeys ⟨defaultConf, [hostOpt, brokenTagsOpt], none⟩) ∧
    (∃ msg, createFlagSet (sampleEnv []) ⟨defaultConf, [hostOpt, brokenTagsOpt], none⟩ =
      .error msg) ∧
    createFlagSet (sampleEnv []) ⟨defaultConf, [hostOpt, brokenTagsOpt], none⟩ =
      .error "error parsing default value 'a\"b' for slice variable tags: bare quote in non-quoted field" ∧
    noClash (flagKeys ⟨defaultConf, [hostOpt, quotedKeyOpt], none⟩) ∧
    ¬ ∃ msg, createFlagSet (sampleEnv []) ⟨defaultConf, [hostOpt, quotedKeyOpt], none⟩ =
      .error msg :=
  ⟨by decide,
    ((createFlagSet_panics_iff (sampleEnv []) ⟨defaultConf, [hostOpt, brokenTagsOpt], none⟩).1
      (by decide)).1.mpr
      ⟨brokenTagsOpt, by decide, rfl, .string, rfl, by decide, _, rfl⟩,
    by decide,
    by decide,
    fun h => by
      obtain ⟨opt, ho, _, elem, ht, hne, _⟩ :=
        ((createFlagSet_panics_iff (sampleEnv []) ⟨defaultConf, [hostOpt, quotedKeyOpt], none⟩).1
          (by decide)).1.mp h
      simp only [List.mem_cons, List.mem_singleton, List.not_mem_nil, or_false] at ho
      rcases ho with rfl | rfl
      · cases ht
      · cases ht
        exact hne rfl⟩

/-! ## Lemmas on the loop of `parseFlags` -/

/-- The four ways in which the loop of `parseFlags` treats its next option: it skips
it, it faults, the coercion fails, or the coercion succeeds and the loop goes on. -/
theorem flagLoop_cons (env : Env) (flagSet : FlagSet) (opt : option) (rest : List option) :
    (explicitlySet flagSet opt = false ∧
        flagLoop env flagSet (opt :: rest) =
          ⟨opt :: (flagLoop env flagSet rest).opts, (flagLoop env flagSet rest).calls,
            (flagLoop env flagSet rest).ending⟩) ∨
    (explicitlySet flagSet opt = true ∧ passedString env flagSet opt = none ∧
        ∃ msg, flagLoop env flagSet (opt :: rest) = ⟨opt :: rest, [], .panicked msg⟩) ∨
    (explicitlySet flagSet opt = true ∧
        ∃ v err, passedString env flagSet opt = some v ∧
          env.setValueByString opt v = .error err ∧
          flagLoop env flagSet (opt :: rest) =
            ⟨opt :: rest, [(opt, v)], .returned (some (flagError opt err))⟩) ∨
    (explicitlySet flagSet opt = true ∧
        ∃ v w, passedString env flagSet opt = some v ∧
          env.setValueByString opt v = .ok w ∧
          flagLoop env flagSet (opt :: rest) =
            ⟨{ opt with value := w } :: (flagLoop env flagSet rest).opts,
              (opt, v) :: (flagLoop env flagSet rest).calls,
              (flagLoop env flagSet rest).ending⟩) := by
  cases hp : opt.isParent
  · cases hc : flagSet.Changed opt.fullID
    · left
      exact ⟨by simp [explicitlySet, hp, hc], by simp [flagLoop, hp, hc]⟩
    · right
      have hex : explicitlySet flagSet opt = true := by simp [explicitlySet, hp, hc]
      cases hl : flagSet.Lookup opt.fullID with
      | none =>
        left
        exact ⟨hex, by simp [passedString, hl], nilDereference, by simp [flagLoop, hp, hc, hl]⟩
      | some flag =>
        cases hv : (if opt.isSlice then trimBrackets (valueString env flag.Value)
            else some (goBytes (valueString env flag.Value))) with
        | none =>
          left
          exact ⟨hex, by simp [passedString, hl, hv], sliceBounds, by simp [flagLoop, hp, hc, hl, hv]⟩
        | some v =>
          right
          cases hset : env.setValueByString opt v with
          | error err =>
            left
            exact ⟨hex, v, err, by simp [passedString, hl, hv], hset,
              by simp [flagLoop, hp, hc, hl, hv, hset]⟩
          | ok w =>
            right
            exact ⟨hex, v, w, by simp [passedString, hl, hv], hset,
              by simp [flagLoop, hp, hc, hl, hv, hset]⟩
  · left
    exact ⟨by simp [explicitlySet, hp], by simp [flagLoop, hp]⟩

/-- The loop of `parseFlags` never exits the process. -/
theorem flagLoop_not_exited (env : Env) (flagSet : FlagSet) (opts : List option) (code : Nat) :
    (flagLoop env flagSet opts).ending ≠ .exited code := by
  induction opts with
  | nil => simp [flagLoop]
  | cons opt rest ih =>
    rcases flagLoop_cons env flagSet opt rest with ⟨_, heq⟩ | ⟨_, _, msg, heq⟩ |
      ⟨_, v, err, _, _, heq⟩ | ⟨_, v, w, _, _, heq⟩
    · rw [heq]
      exact ih
    · rw [heq]
      simp
    · rw [heq]
      simp
    · rw [heq]
      exact ih

/-- Every invocation of `setValueByString` in the loop is for an explicitly set
option and passes the string of its flag. -/
theorem flagLoop_calls_passed (env : Env) (flagSet : FlagSet) (opts : List option) :
    ∀ c ∈ (flagLoop env flagSet opts).calls,
      c.1 ∈ opts ∧ explicitlySet flagSet c.1 = true ∧ passedString env flagSet c.1 = some c.2 := by
  induction opts with
  | nil => simp [flagLoop]
  | cons opt rest ih =>
    intro c hc
    rcases flagLoop_cons env flagSet opt rest with ⟨_, heq⟩ | ⟨_, _, msg, heq⟩ |
      ⟨hex, v, err, hv, _, heq⟩ | ⟨hex, v, w, hv, _, heq⟩
    · rw [heq] at hc
      obtain ⟨h1, h2⟩ := ih c hc
      exact ⟨List.mem_cons_of_mem _ h1, h2⟩
    · rw [heq] at hc
      cases hc
    · rw [heq] at hc
      simp only [List.mem_singleton] at hc
      subst hc
      exact ⟨List.mem_cons_self _ _, hex, hv⟩
    · rw [heq] at hc
      rcases List.mem_cons.mp hc with rfl | hc
      · exact ⟨List.mem_cons_self _ _, hex, hv⟩
      · obtain ⟨h1, h2⟩ := ih c hc
        exact ⟨List.mem_cons_of_mem _ h1, h2⟩

/-! ## Lemmas on `initFlags` -/

/-- `initFlags` on a setup that holds a flag set does nothing. -/
theorem initFlags_cached (env : Env) (s : setup) (flagSet : FlagSet)
    (h : s.flagSet = some flagSet) : initFlags env s = ⟨s, [], [], .returned none⟩ := by
  unfold initFlags
  rw [h]

/-- `printHelpAndExit` does not return. -/
theorem printHelpAndExit_not_returned (env : Env) (s : setup) (e : Option String) :
    (printHelpAndExit env s : Run (Option String)).ending ≠ .returned e := by
  unfold printHelpAndExit
  cases s.flagSet <;> simp

/-- `printHelpAndExit` leaves the setup as it is and invokes no coercion. -/
theorem printHelpAndExit_frame (env : Env) (s : setup) :
    (printHelpAndExit env s : Run (Option String)).s = s ∧
      (printHelpAndExit env s : Run (Option String)).calls = [] := by
  unfold printHelpAndExit
  cases s.flagSet <;> simp

/-- `initFlags` changes nothing of the setup but its flag set, and invokes no
coercion. -/
theorem initFlags_frame (env : Env) (s : setup) :
    (initFlags env s).s.conf = s.conf ∧ (initFlags env s).s.allOpts = s.allOpts ∧
      (initFlags env s).calls = [] := by
  unfold initFlags
  cases hf : s.flagSet with
  | some flagSet => simp
  | none =>
    cases hc : createFlagSet env s with
    | error msg => simp
    | ok created =>
      cases hp : (created.Parse env env.args).2 with
      | some err => simp [hp]
      | none =>
        cases hl : (created.Parse env env.args).1.Lookup "help" with
        | none => simp [hp, hl]
        | some help =>
          cases hch : help.Changed
          · simp [hp, hl, hch]
          · simp only [hp, hl, hch, if_true]
            obtain ⟨h1, h2⟩ := printHelpAndExit_frame env
              { s with flagSet := some (created.Parse env env.args).1 }
            rw [h1, h2]
            exact ⟨rfl, rfl, rfl⟩

/-- The ways in which `initFlags` ends on a setup without a flag set. -/
theorem initFlags_fresh (env : Env) (s : setup) (hf : s.flagSet = none) :
    (∃ msg, createFlagSet env s = .error msg ∧
        initFlags env s = ⟨s, [], [], .panicked msg⟩) ∨
    (∃ created flagSet, createFlagSet env s = .ok created ∧
      ((∃ err, created.Parse env env.args = (flagSet, some err) ∧
          initFlags env s = ⟨{ s with flagSet := some flagSet }, [], [], .returned (some err)⟩) ∨
        (created.Parse env env.args = (flagSet, none) ∧
          ((flagSet.Lookup "help" = none ∧
              initFlags env s =
                ⟨{ s with flagSet := some flagSet }, [], [], .panicked nilDereference⟩) ∨
            (∃ help, flagSet.Lookup "help" = some help ∧ help.Changed = true ∧
              initFlags env s = printHelpAndExit env { s with flagSet := some flagSet }) ∨
            (∃ help, flagSet.Lookup "help" = some help ∧ help.Changed = false ∧
              initFlags env s =
                ⟨{ s with flagSet := some flagSet }, [], [], .returned none⟩))))) := by
  have key : initFlags env s =
      match createFlagSet env s with
      | .error msg => ⟨s, [], [], .panicked msg⟩
      | .ok created =>
        match (created.Parse env env.args).2 with
        | some err =>
          ⟨{ s with flagSet := some (created.Parse env env.args).1 }, [], [], .returned (some err)⟩
        | none =>
          match (created.Parse env env.args).1.Lookup "help" with
          | none =>
            ⟨{ s with flagSet := some (created.Parse env env.args).1 }, [], [],
              .panicked nilDereference⟩
          | some help =>
            if help.Changed then
              printHelpAndExit env { s with flagSet := some (created.Parse env env.args).1 }
            else
              ⟨{ s with flagSet := some (created.Parse env env.args).1 }, [], [],
                .returned none⟩ := by
    unfold initFlags
    rw [hf]
  rcases except_cases (createFlagSet env s) with ⟨msg, hc⟩ | ⟨created, hc⟩
  · left
    exact ⟨msg, hc, by rw [key, hc]⟩
  · right
    refine ⟨created, (created.Parse env env.args).1, hc, ?_⟩
    rcases Option.eq_none_or_eq_some (created.Parse env env.args).2 with hp | ⟨err, hp⟩
    · right
      refine ⟨by rw [← hp], ?_⟩
      rcases Option.eq_none_or_eq_some ((created.Parse env env.args).1.Lookup "help") with
        hl | ⟨help, hl⟩
      · left
        exact ⟨hl, by rw [key, hc]; simp only [hp, hl]⟩
      · right
        rcases Bool.eq_false_or_eq_true help.Changed with hch | hch
        · left
          exact ⟨help, hl, hch, by rw [key, hc]; simp only [hp, hl, hch, if_true]⟩
        · right
          refine ⟨help, hl, hch, ?_⟩
          rw [key, hc]
          simp [hp, hl, hch]
    · left
      exact ⟨err, by rw [← hp], by rw [key, hc]; simp only [hp]⟩

/-- When `initFlags` returns, the setup holds a flag set. -/
theorem initFlags_returned (env : Env) (s : setup) (e : Option String)
    (h : (initFlags env s).ending = .returned e) :
    ∃ flagSet, (initFlags env s).s.flagSet = some flagSet := by
  rcases Option.eq_none_or_eq_some s.flagSet with hf | ⟨flagSet, hf⟩
  · rcases initFlags_fresh env s hf with ⟨msg, _, heq⟩ |
      ⟨created, flagSet, _, ⟨err, _, heq⟩ | ⟨_, ⟨_, heq⟩ | ⟨help, _, _, heq⟩ | ⟨help, _, _, heq⟩⟩⟩
    · rw [heq] at h
      cases h
    · exact ⟨flagSet, by rw [heq]⟩
    · rw [heq] at h
      cases h
    · rw [heq] at h
      exact absurd h (printHelpAndExit_not_returned env _ e)
    · exact ⟨flagSet, by rw [heq]⟩
  · exact ⟨flagSet, by rw [initFlags_cached env s flagSet hf]; exact hf⟩

/-- When `initFlags` returns nil, the flag set of the setup is the cached one, or
the one just created and parsed without an error, in which the help flag is
registered and was not given. -/
theorem initFlags_nil (env : Env) (s : setup)
    (h : (initFlags env s).ending = .returned none) :
    ∃ flagSet, initFlags env s = ⟨{ s with flagSet := some flagSet }, [], [], .returned none⟩ ∧
      (s.flagSet = some flagSet ∨
        (s.flagSet = none ∧ ∃ created, createFlagSet env s = .ok created ∧
          created.Parse env env.args = (flagSet, none) ∧
          ∃ help, flagSet.Lookup "help" = some help ∧ help.Changed = false)) := by
  rcases Option.eq_none_or_eq_some s.flagSet with hf | ⟨flagSet, hf⟩
  · rcases initFlags_fresh env s hf with ⟨msg, _, heq⟩ |
      ⟨created, flagSet, hc, ⟨err, _, heq⟩ |
        ⟨hp, ⟨_, heq⟩ | ⟨help, _, _, heq⟩ | ⟨help, hl, hch, heq⟩⟩⟩
    · rw [heq] at h
      cases h
    · rw [heq] at h
      cases h
    · rw [heq] at h
      cases h
    · rw [heq] at h
      exact absurd h (printHelpAndExit_not_returned env _ none)
    · exact ⟨flagSet, heq, Or.inr ⟨hf, created, hc, hp, help, hl, hch⟩⟩
  · refine ⟨flagSet, ?_, Or.inl hf⟩
    rw [initFlags_cached env s flagSet hf, ← hf]

/-! ## Lemmas on `parseFlags` -/

/-- After `initFlags` returned nil, `parseFlags` is its loop over the flag set. -/
theorem parseFlags_of_nil (env : Env) (s : setup) (flagSet : FlagSet)
    (h : initFlags env s = ⟨{ s with flagSet := some flagSet }, [], [], .returned none⟩) :
    parseFlags env s =
      ⟨{ s with flagSet := some flagSet, allOpts := (flagLoop env flagSet s.allOpts).opts }, [],
        (flagLoop env flagSet s.allOpts).calls, (flagLoop env flagSet s.allOpts).ending⟩ := by
  unfold parseFlags
  rw [h]
  simp

/-- Unless `initFlags` returns nil, `parseFlags` ends as `initFlags` does and
invokes no coercion. -/
theorem parseFlags_of_not_nil (env : Env) (s : setup)
    (h : (initFlags env s).ending ≠ .returned none) :
    (parseFlags env s).calls = [] ∧ (parseFlags env s).s = (initFlags env s).s ∧
      (parseFlags env s).stdout = (initFlags env s).stdout ∧
      (parseFlags env s).ending = (initFlags env s).ending := by
  have hcalls := (initFlags_frame env s).2.2
  unfold parseFlags
  cases he : (initFlags env s).ending with
  | returned e =>
    cases e with
    | none => exact absurd he h
    | some err => simp [he, hcalls]
  | exited code => simp [he, hcalls]
  | panicked msg => simp [he, hcalls]

theorem data_infix_append (a b c d : String) :
    b.data <:+: (a ++ b ++ c ++ d).data ∧ d.data <:+: (a ++ b ++ c ++ d).data := by
  constructor
  · refine ⟨a.data, c.data ++ d.data, ?_⟩
    simp [String.data_append]
  · refine ⟨a.data ++ b.data ++ c.data, [], ?_⟩
    simp [String.data_append]

theorem passedString_some (env : Env) (flagSet : FlagSet) (opt : option) (v : List UInt8)
    (h : passedString env flagSet opt = some v) :
    ∃ flag, flagSet.Lookup opt.fullID = some flag ∧
      (opt.isSlice = false → v = goBytes (valueString env flag.Value)) ∧
      (opt.isSlice = true → trimBrackets (valueString env flag.Value) = some v) := by
  unfold passedString at h
  rcases Option.eq_none_or_eq_some (flagSet.Lookup opt.fullID) with hl | ⟨flag, hl⟩
  · rw [hl] at h
    cases h
  · rw [hl] at h
    refine ⟨flag, hl, ?_, ?_⟩
    · intro hs
      simp only [hs] at h
      simpa using h.symm
    · intro hs
      simpa [hs] using h


/-- The run of the loop of `parseFlags`, in full: it goes past an initial part of
the options, coercing those of them that are explicitly set, and then either is at
the end and returns nil, or stops at an explicitly set option whose coercion fails
and returns the error, or stops at one for which the string of the flag cannot be
taken and panics; the options from there on are as they were. -/
theorem flagLoop_exact (env : Env) (flagSet : FlagSet) (opts : List option) :
    ∃ done written rest, opts = done ++ rest ∧
      (flagLoop env flagSet opts).opts = written ++ rest ∧
      List.Forall₂ (Coerced env flagSet) done written ∧
      ((rest = [] ∧ (flagLoop env flagSet opts).ending = .returned none ∧
          (flagLoop env flagSet opts).calls.map Prod.fst =
            done.filter (explicitlySet flagSet)) ∨
        (∃ opt after v err pre, rest = opt :: after ∧ explicitlySet flagSet opt = true ∧
          passedString env flagSet opt = some v ∧ env.setValueByString opt v = .error err ∧
          (flagLoop env flagSet opts).ending = .returned (some (flagError opt err)) ∧
          (flagLoop env flagSet opts).calls = pre ++ [(opt, v)] ∧
          pre.map Prod.fst = done.filter (explicitlySet flagSet)) ∨
        (∃ opt after msg, rest = opt :: after ∧ explicitlySet flagSet opt = true ∧
          passedString env flagSet opt = none ∧
          (flagLoop env flagSet opts).ending = .panicked msg ∧
          (flagLoop env flagSet opts).calls.map Prod.fst =
            done.filter (explicitlySet flagSet))) := by
  induction opts with
  | nil =>
    exact ⟨[], [], [], rfl, by simp [flagLoop], List.Forall₂.nil,
      Or.inl ⟨rfl, by simp [flagLoop], by simp [flagLoop]⟩⟩
  | cons opt rest ih =>
    obtain ⟨done, written, rest1, h1, h2, h3, h4⟩ := ih
    rcases flagLoop_cons env flagSet opt rest with ⟨hex, heq⟩ | ⟨hex, hv, msg, heq⟩ |
      ⟨hex, v, err, hv, hset, heq⟩ | ⟨hex, v, w, hv, hset, heq⟩
    · have hco : Coerced env flagSet opt opt := by
        unfold Coerced
        simp [hex]
      refine ⟨opt :: done, opt :: written, rest1, by simp [h1], by simp [heq, h2],
        List.Forall₂.cons hco h3, ?_⟩
      rw [heq]
      simpa [List.filter_cons, hex] using h4
    · refine ⟨[], [], opt :: rest, rfl, by simp [heq], List.Forall₂.nil, ?_⟩
      right
      right
      exact ⟨opt, rest, msg, rfl, hex, hv, by simp [heq], by simp [heq]⟩
    · refine ⟨[], [], opt :: rest, rfl, by simp [heq], List.Forall₂.nil, ?_⟩
      right
      left
      exact ⟨opt, rest, v, err, [], rfl, hex, hv, hset, by simp [heq], by simp [heq], rfl⟩
    · have hco : Coerced env flagSet opt { opt with value := w } := by
        unfold Coerced
        rw [if_pos hex]
        exact ⟨v, w, hv, hset, rfl⟩
      refine ⟨opt :: done, { opt with value := w } :: written, rest1, by simp [h1],
        by simp [heq, h2], List.Forall₂.cons hco h3, ?_⟩
      rw [heq]
      rcases h4 with ⟨hr, hend, hcalls⟩ |
        ⟨o, after, v1, err, pre, hr, hex1, hv1, hset1, hend, hcalls, hpre⟩ |
        ⟨o, after, msg, hr, hex1, hv1, hend, hcalls⟩
      · exact Or.inl ⟨hr, hend, by simp [List.filter_cons, hex, hcalls]⟩
      · right
        left
        exact ⟨o, after, v1, err, (opt, v) :: pre, hr, hex1, hv1, hset1, hend,
          by simp [hcalls], by simp [List.filter_cons, hex, hpre]⟩
      · right
        right
        exact ⟨o, after, msg, hr, hex1, hv1, hend, by simp [List.filter_cons, hex, hcalls]⟩

/-! ## Claims on `parseFlags` -/

/-- C1, as stated, fails: with `port` and `host` both given on the command line and
the value of `port` not a number, the command line parses and help is not requested,
yet `setValueByString` is never invoked on `host`. -/
theorem parseFlags_skips_after_error :
    (initFlags (sampleEnv [("port", "ab"), ("host", "h")])
        ⟨defaultConf, [portOpt, hostOpt], none⟩).ending = .returned none ∧
    ((parseFlags (sampleEnv [("port", "ab"), ("host", "h")])
        ⟨defaultConf, [portOpt, hostOpt], none⟩).s.flagSet.map
          (fun flagSet => flagSet.Changed hostOpt.fullID)) = some true ∧
    hostOpt.isParent = false ∧
    hostOpt ∉ (parseFlags (sampleEnv [("port", "ab"), ("host", "h")])
        ⟨defaultConf, [portOpt, hostOpt], none⟩).calls.map Prod.fst := by
  decide

/-- C1, amended: when the command line parses and help is not requested,
`parseFlags` goes through `allOpts` in order and invokes `setValueByString` on the
non-parent options whose flag was given, one after the other, until it is at the end
and returns nil, or the coercion of one fails and it returns the error, or the string
of a flag cannot be taken and it panics.  Each invocation passes the bytes of the
string form of the value of the option's flag, without the first and the last byte
for an option marked `isSlice`.  An option it went past holds the value of its
coercion when its flag was given and is as it was otherwise; the option it stopped
at and all later ones are as they were. -/
theorem parseFlags_sets_explicit (env : Env) (s : setup)
    (hinit : (initFlags env s).ending = .returned none) :
    ∃ flagSet, (parseFlags env s).s.flagSet = some flagSet ∧
      (s.flagSet = none → ∃ created, createFlagSet env s = .ok created ∧
        created.Parse env env.args = (flagSet, none)) ∧
      (∀ c ∈ (parseFlags env s).calls,
        c.1.isParent = false ∧ flagSet.Changed c.1.fullID = true ∧
        ∃ flag, flagSet.Lookup c.1.fullID = some flag ∧
          (c.1.isSlice = false → c.2 = goBytes (valueString env flag.Value)) ∧
          (c.1.isSlice = true → trimBrackets (valueString env flag.Value) = some c.2)) ∧
      ∃ done written rest,
        s.allOpts = done ++ rest ∧
        (parseFlags env s).s.allOpts = written ++ rest ∧
        List.Forall₂ (Coerced env flagSet) done written ∧
        ((rest = [] ∧ (parseFlags env s).ending = .returned none ∧
            (parseFlags env s).calls.map Prod.fst =
              done.filter (fun opt => !opt.isParent && flagSet.Changed opt.fullID)) ∨
          (∃ opt after v err, rest = opt :: after ∧
            opt.isParent = false ∧ flagSet.Changed opt.fullID = true ∧
            env.setValueByString opt v = .error err ∧
            (parseFlags env s).ending =
              .returned (some ("error parsing flag " ++ opt.fullID ++ ": " ++ err)) ∧
            ∃ pre, (parseFlags env s).calls = pre ++ [(opt, v)] ∧
              pre.map Prod.fst =
                done.filter (fun opt => !opt.isParent && flagSet.Changed opt.fullID)) ∨
          (∃ opt after msg, rest = opt :: after ∧
            opt.isParent = false ∧ flagSet.Changed opt.fullID = true ∧
            passedString env flagSet opt = none ∧
            (parseFlags env s).ending = .panicked msg ∧
            (parseFlags env s).calls.map Prod.fst =
              done.filter (fun opt => !opt.isParent && flagSet.Changed opt.fullID))) := by
  obtain ⟨flagSet, heq, hsrc⟩ := initFlags_nil env s hinit
  have hp := parseFlags_of_nil env s flagSet heq
  have hexp : ∀ opt, explicitlySet flagSet opt = true →
      opt.isParent = false ∧ flagSet.Changed opt.fullID = true := by
    intro opt h
    simpa [explicitlySet] using h
  have hpassed := flagLoop_calls_passed env flagSet s.allOpts
  refine ⟨flagSet, by rw [hp], ?_, ?_, ?_⟩
  · intro hnone
    rcases hsrc with hsome | ⟨_, created, hc, hparse, _⟩
    · rw [hnone] at hsome
      cases hsome
    · exact ⟨created, hc, hparse⟩
  · rw [hp]
    intro c hc
    obtain ⟨_, hex, hps⟩ := hpassed c hc
    exact ⟨(hexp c.1 hex).1, (hexp c.1 hex).2, passedString_some env flagSet c.1 c.2 hps⟩
  · obtain ⟨done, written, rest, h1, h2, h3, h4⟩ := flagLoop_exact env flagSet s.allOpts
    refine ⟨done, written, rest, h1, by rw [hp]; exact h2, h3, ?_⟩
    rw [hp]
    rcases h4 with ⟨hr, hend, hcalls⟩ |
      ⟨opt, after, v, err, pre, hr, hex, hv, hset, hend, hcalls, hpre⟩ |
      ⟨opt, after, msg, hr, hex, hv, hend, hcalls⟩
    · exact Or.inl ⟨hr, hend, hcalls⟩
    · right
      left
      exact ⟨opt, after, v, err, hr, (hexp opt hex).1, (hexp opt hex).2, hset, hend, pre,
        hcalls, hpre⟩
    · right
      right
      exact ⟨opt, after, msg, hr, (hexp opt hex).1, (hexp opt hex).2, hv, hend, hcalls⟩

/-- C1, amended, at a concrete command line: `port` and `tags` are given and
coerced, `host` is not given and not touched. -/
theorem parseFlags_sets_explicit_witness :
    ∃ flagSet, (parseFlags (sampleEnv [("port", "12"), ("tags", "x,y")]) ⟨defaultConf, [hostOpt, portOpt, tagsOpt], none⟩).s.flagSet = some flagSet ∧
      ((⟨defaultConf, [hostOpt, portOpt, tagsOpt], none⟩ : setup).flagSet = none → ∃ created, createFlagSet (sampleEnv [("port", "12"), ("tags", "x,y")]) ⟨defaultConf, [hostOpt, portOpt, tagsOpt], none⟩ = .ok created ∧
        created.Parse (sampleEnv [("port", "12"), ("tags", "x,y")]) (sampleEnv [("port", "12"), ("tags", "x,y")]).args = (flagSet, none)) ∧
      (∀ c ∈ (parseFlags (sampleEnv [("port", "12"), ("tags", "x,y")]) ⟨defaultConf, [hostOpt, portOpt, tagsOpt], none⟩).calls,
        c.1.isParent = false ∧ flagSet.Changed c.1.fullID = true ∧
        ∃ flag, flagSet.Lookup c.1.fullID = some flag ∧
          (c.1.isSlice = false → c.2 = goBytes (valueString (sampleEnv [("port", "12"), ("tags", "x,y")]) flag.Value)) ∧
          (c.1.isSlice = true → trimBrackets (valueString (sampleEnv [("port", "12"), ("tags", "x,y")]) flag.Value) = some c.2)) ∧
      ∃ done written rest,
        (⟨defaultConf, [hostOpt, portOpt, tagsOpt], none⟩ : setup).allOpts = done ++ rest ∧
        (parseFlags (sampleEnv [("port", "12"), ("tags", "x,y")]) ⟨defaultConf, [hostOpt, portOpt, tagsOpt], none⟩).s.allOpts = written ++ rest ∧
        List.Forall₂ (Coerced (sampleEnv [("port", "12"), ("tags", "x,y")]) flagSet) done written ∧
        ((rest = [] ∧ (parseFlags (sampleEnv [("port", "12"), ("tags", "x,y")]) ⟨defaultConf, [hostOpt, portOpt, tagsOpt], none⟩).ending = .returned none ∧
            (parseFlags (sampleEnv [("port", "12"), ("tags", "x,y")]) ⟨defaultConf, [hostOpt, portOpt, tagsOpt], none⟩).calls.map Prod.fst =
              done.filter (fun opt => !opt.isParent && flagSet.Changed opt.fullID)) ∨
          (∃ opt after v err, rest = opt :: after ∧
            opt.isParent = false ∧ flagSet.Changed opt.fullID = true ∧
            (sampleEnv [("port", "12"), ("tags", "x,y")]).setValueByString opt v = .error err ∧
            (parseFlags (sampleEnv [("port", "12"), ("tags", "x,y")]) ⟨defaultConf, [hostOpt, portOpt, tagsOpt], none⟩).ending =
              .returned (some ("error parsing flag " ++ opt.fullID ++ ": " ++ err)) ∧
            ∃ pre, (parseFlags (sampleEnv [("port", "12"), ("tags", "x,y")]) ⟨defaultConf, [hostOpt, portOpt, tagsOpt], none⟩).calls = pre ++ [(opt, v)] ∧
              pre.map Prod.fst =
                done.filter (fun opt => !opt.isParent && flagSet.Changed opt.fullID)) ∨
          (∃ opt after msg, rest = opt :: after ∧
            opt.isParent = false ∧ flagSet.Changed opt.fullID = true ∧
            passedString (sampleEnv [("port", "12"), ("tags", "x,y")]) flagSet opt = none ∧
            (parseFlags (sampleEnv [("port", "12"), ("tags", "x,y")]) ⟨defaultConf, [hostOpt, portOpt, tagsOpt], none⟩).ending = .panicked msg ∧
            (parseFlags (sampleEnv [("port", "12"), ("tags", "x,y")]) ⟨defaultConf, [hostOpt, portOpt, tagsOpt], none⟩).calls.map Prod.fst =
              done.filter (fun opt => !opt.isParent && flagSet.Changed opt.fullID))) :=
  parseFlags_sets_explicit (sampleEnv [("port", "12"), ("tags", "x,y")]) ⟨defaultConf, [hostOpt, portOpt, tagsOpt], none⟩ (by decide)

/-- What C1, amended, comes to at that command line: two invocations, on `port` with
`12` and on `tags` with `x,y`, and their values written; and a flag given with an
empty value is coerced from the empty string. -/
theorem parseFlags_sets_explicit_run :
    (parseFlags (sampleEnv [("port", "12"), ("tags", "x,y")]) ⟨defaultConf, [hostOpt, portOpt, tagsOpt], none⟩).calls = [(portOpt, goBytes "12"), (tagsOpt, goBytes "x,y")] ∧
    (parseFlags (sampleEnv [("port", "12"), ("tags", "x,y")]) ⟨defaultConf, [hostOpt, portOpt, tagsOpt], none⟩).ending = .returned none ∧
    (parseFlags (sampleEnv [("port", "12"), ("tags", "x,y")]) ⟨defaultConf, [hostOpt, portOpt, tagsOpt], none⟩).s.allOpts =
      [hostOpt, { portOpt with value := .int 12 },
        { tagsOpt with value := .strs [goBytes "x", goBytes "y"] }] ∧
    (parseFlags (sampleEnv [("host", "")]) ⟨defaultConf, [hostOpt], none⟩).calls =
      [(hostOpt, [])] ∧
    (parseFlags (sampleEnv [("host", "")]) ⟨defaultConf, [hostOpt], none⟩).s.allOpts =
      [{ hostOpt with value := .str [] }] := by
  decide

/-- C9, as stated, fails.  With `port` set to `ab` and help requested, the command
line parses and the coercion of `port` fails on `ab`, yet `parseFlags` returns no
error: it exits with status 2 before any coercion.  And the error that `parseFlags`
returns is made of the option's `fullID` and the error of the coercion only: with a
coercion whose error is `invalid syntax`, it does not name the token `ab`. -/
theorem parseFlags_error_not_returned :
    ((createFlagSet (sampleEnv [("port", "ab"), ("help", "true")])
        ⟨defaultConf, [hostOpt, portOpt], none⟩).map
      (fun flagSet => (flagSet.Parse (sampleEnv [("port", "ab"), ("help", "true")])
        [("port", "ab"), ("help", "true")]).2)) = .ok none ∧
    ((parseFlags (sampleEnv [("port", "ab"), ("help", "true")])
        ⟨defaultConf, [hostOpt, portOpt], none⟩).s.flagSet.map
      (fun flagSet => (flagSet.Changed portOpt.fullID,
        passedString (sampleEnv [("port", "ab"), ("help", "true")]) flagSet portOpt))) =
      some (true, some (goBytes "ab")) ∧
    portOpt.isParent = false ∧
    (sampleEnv [("port", "ab"), ("help", "true")]).setValueByString portOpt (goBytes "ab") =
      .error "cannot parse ab as int" ∧
    (parseFlags (sampleEnv [("port", "ab"), ("help", "true")])
        ⟨defaultConf, [hostOpt, portOpt], none⟩).ending = .exited 2 ∧
    (parseFlags (terseEnv [("port", "ab")]) ⟨defaultConf, [hostOpt, portOpt], none⟩).ending =
      .returned (some "error parsing flag port: invalid syntax") ∧
    (parseFlags (terseEnv [("port", "ab")]) ⟨defaultConf, [hostOpt, portOpt], none⟩).calls =
      [(portOpt, goBytes "ab")] ∧
    ¬ goBytes "ab" <:+: goBytes "error parsing flag port: invalid syntax" := by
  decide

/-- C9, amended: when the command line parses, help is not requested and the string
of every given flag can be taken, `parseFlags` returns an error if and only if
`setValueByString` fails for some non-parent option whose flag was given, on the
string of that flag.  The error is the one for the first such option in the order of
`allOpts`: the options before it were gone past and coerced with success, the failed
invocation is the last one, the option and all later ones are as they were.  The error
reads `error parsing flag`, the option's `fullID`, and the error of the coercion; it
names the identifier and carries that error as it stands. -/
theorem parseFlags_error_iff (env : Env) (s : setup) (flagSet : FlagSet)
    (hinit : (initFlags env s).ending = .returned none)
    (hfs : (initFlags env s).s.flagSet = some flagSet)
    (hnofault : ∀ opt ∈ s.allOpts, opt.isParent = false → flagSet.Changed opt.fullID = true →
      passedString env flagSet opt ≠ none) :
    ((∃ e, (parseFlags env s).ending = .returned (some e)) ↔
      ∃ opt ∈ s.allOpts, opt.isParent = false ∧ flagSet.Changed opt.fullID = true ∧
        ∃ v err, passedString env flagSet opt = some v ∧
          env.setValueByString opt v = .error err) ∧
    (∀ e, (parseFlags env s).ending = .returned (some e) →
      ∃ before opt after written pre v err,
        s.allOpts = before ++ opt :: after ∧
        (parseFlags env s).s.allOpts = written ++ opt :: after ∧
        List.Forall₂ (Coerced env flagSet) before written ∧
        (∀ o ∈ before, o.isParent = false → flagSet.Changed o.fullID = true →
          ∃ t w, passedString env flagSet o = some t ∧ env.setValueByString o t = .ok w) ∧
        opt.isParent = false ∧ flagSet.Changed opt.fullID = true ∧
        passedString env flagSet opt = some v ∧
        env.setValueByString opt v = .error err ∧
        (parseFlags env s).calls = pre ++ [(opt, v)] ∧
        pre.map Prod.fst =
          before.filter (fun o => !o.isParent && flagSet.Changed o.fullID) ∧
        e = "error parsing flag " ++ opt.fullID ++ ": " ++ err ∧
        opt.fullID.data <:+: e.data ∧ err.data <:+: e.data) := by
  obtain ⟨flagSet1, heq, _⟩ := initFlags_nil env s hinit
  have hsame : flagSet1 = flagSet := by
    rw [heq] at hfs
    simpa using hfs
  subst hsame
  have hp := parseFlags_of_nil env s flagSet1 heq
  have hexp : ∀ opt, explicitlySet flagSet1 opt = true →
      opt.isParent = false ∧ flagSet1.Changed opt.fullID = true := by
    intro opt h
    simpa [explicitlySet] using h
  have hexp1 : ∀ opt, opt.isParent = false → flagSet1.Changed opt.fullID = true →
      explicitlySet flagSet1 opt = true := by
    intro opt h1 h2
    simp [explicitlySet, h1, h2]
  obtain ⟨done, written, rest, h1, h2, h3, h4⟩ := flagLoop_exact env flagSet1 s.allOpts
  have hdone : ∀ o ∈ done, o.isParent = false → flagSet1.Changed o.fullID = true →
      ∃ t w, passedString env flagSet1 o = some t ∧ env.setValueByString o t = .ok w := by
    intro o ho hpar hch
    obtain ⟨o1, _, hco⟩ := forall₂_exists_of_mem h3 o ho
    unfold Coerced at hco
    rw [if_pos (hexp1 o hpar hch)] at hco
    obtain ⟨t, w, ht, hw, _⟩ := hco
    exact ⟨t, w, ht, hw⟩
  rw [hp]
  simp only
  rcases h4 with ⟨hr, hend, _⟩ |
    ⟨opt, after, v, err, pre, hr, hex, hv, hset, hend, hcalls, hpre⟩ |
    ⟨opt, after, msg, hr, hex, hv, hend, _⟩
  · constructor
    · constructor
      · rintro ⟨e, he⟩
        rw [hend] at he
        cases he
      · rintro ⟨opt, ho, hpar, hch, v, err, hv, hset⟩
        exfalso
        rw [h1, hr, List.append_nil] at ho
        obtain ⟨t, w, ht, hw⟩ := hdone opt ho hpar hch
        rw [hv] at ht
        simp only [Option.some.injEq] at ht
        subst ht
        rw [hset] at hw
        cases hw
    · intro e he
      rw [hend] at he
      cases he
  · have hmem : opt ∈ s.allOpts := by
      rw [h1, hr]
      simp
    constructor
    · constructor
      · intro _
        exact ⟨opt, hmem, (hexp opt hex).1, (hexp opt hex).2, v, err, hv, hset⟩
      · intro _
        exact ⟨_, hend⟩
    · intro e he
      rw [hend] at he
      simp only [Ending.returned.injEq, Option.some.injEq] at he
      have hmsg : e = "error parsing flag " ++ opt.fullID ++ ": " ++ err := he.symm
      refine ⟨done, opt, after, written, pre, v, err, by rw [h1, hr], by rw [h2, hr], h3, hdone,
        (hexp opt hex).1, (hexp opt hex).2, hv, hset, hcalls, hpre, hmsg, ?_, ?_⟩
      · rw [hmsg]
        exact (data_infix_append _ _ _ _).1
      · rw [hmsg]
        exact (data_infix_append _ _ _ _).2
  · exfalso
    have hmem : opt ∈ s.allOpts := by
      rw [h1, hr]
      simp
    exact hnofault opt hmem (hexp opt hex).1 (hexp opt hex).2 hv

/-- C9, amended, at a concrete command line: the value of `port` is not a number,
so `parseFlags` returns the error for `port`; `host`, before it, is written, `tags`,
after it, is not. -/
theorem parseFlags_error_iff_witness :
    (∃ e, (parseFlags (sampleEnv [("host", "h"), ("port", "ab"), ("tags", "x")])
        ⟨defaultConf, [hostOpt, portOpt, tagsOpt], none⟩).ending = .returned (some e)) ∧
    (parseFlags (sampleEnv [("host", "h"), ("port", "ab"), ("tags", "x")])
        ⟨defaultConf, [hostOpt, portOpt, tagsOpt], none⟩).ending =
      .returned (some "error parsing flag port: cannot parse ab as int") ∧
    (parseFlags (sampleEnv [("host", "h"), ("port", "ab"), ("tags", "x")])
        ⟨defaultConf, [hostOpt, portOpt, tagsOpt], none⟩).calls =
      [(hostOpt, goBytes "h"), (portOpt, goBytes "ab")] ∧
    (parseFlags (sampleEnv [("host", "h"), ("port", "ab"), ("tags", "x")])
        ⟨defaultConf, [hostOpt, portOpt, tagsOpt], none⟩).s.allOpts =
      [{ hostOpt with value := .str (goBytes "h") }, portOpt, tagsOpt] :=
  ⟨(parseFlags_error_iff (sampleEnv [("host", "h"), ("port", "ab"), ("tags", "x")])
      ⟨defaultConf, [hostOpt, portOpt, tagsOpt], none⟩
      ⟨"/usr/bin/app", false,
        [⟨"host", "", "the host", .stringValue "h", true⟩,
          ⟨"port", "p", "the port", .stringValue "ab", true⟩,
          ⟨"tags", "t", "the tags", .stringSliceValue ["x"] true, true⟩,
          ⟨"help", "h", "print this help menu", .boolValue false, false⟩]⟩
      (by decide) (by decide) (by decide)).1.mpr
      ⟨portOpt, by decide, rfl, by decide, goBytes "ab", "cannot parse ab as int",
        by decide, by decide⟩,
    by decide, by decide, by decide⟩

/-- C2: when the command line parses and sets the help flag, `parseFlags` ends in
`printHelpAndExit`: it prints the usage banner and the flag usages and exits with
status 2, without any invocation of `setValueByString`; the options are as they
were. -/
theorem parseFlags_help_exits (env : Env) (s : setup) (created flagSet : FlagSet)
    (hfresh : s.flagSet = none) (hcreate : createFlagSet env s = .ok created)
    (hparse : created.Parse env env.args = (flagSet, none))
    (hhelp : flagSet.Changed "help" = true) :
    (parseFlags env s).ending = .exited 2 ∧
    (parseFlags env s).calls = [] ∧
    (parseFlags env s).s.allOpts = s.allOpts ∧
    (parseFlags env s).s.conf = s.conf ∧
    (parseFlags env s).s.flagSet = some flagSet ∧
    (parseFlags env s).stdout =
      [if s.conf.HelpMessage = "" then "Usage of " ++ env.pathBase env.args0 ++ ":"
        else s.conf.HelpMessage,
       env.flagUsages flagSet] := by
  have hinit : initFlags env s = printHelpAndExit env { s with flagSet := some flagSet } := by
    rcases initFlags_fresh env s hfresh with ⟨msg, hc, _⟩ |
      ⟨created1, flagSet1, hc, ⟨err, hp, _⟩ |
        ⟨hp, ⟨hl, _⟩ | ⟨help, _, _, heq⟩ | ⟨help, hl, hch, _⟩⟩⟩
    · rw [hcreate] at hc
      cases hc
    · rw [hcreate] at hc
      cases hc
      rw [hparse] at hp
      cases hp
    · rw [hcreate] at hc
      cases hc
      rw [hparse] at hp
      cases hp
      simp [FlagSet.Changed, hl] at hhelp
    · rw [hcreate] at hc
      cases hc
      rw [hparse] at hp
      cases hp
      exact heq
    · rw [hcreate] at hc
      cases hc
      rw [hparse] at hp
      cases hp
      simp [FlagSet.Changed, hl, hch] at hhelp
  have hrun : initFlags env s =
      ⟨{ s with flagSet := some flagSet },
        [if s.conf.HelpMessage = "" then "Usage of " ++ env.pathBase env.args0 ++ ":"
          else s.conf.HelpMessage,
         env.flagUsages flagSet], [], .exited 2⟩ := by
    rw [hinit]
    simp [printHelpAndExit, defaultHelpMessageFor]
  have hne : (initFlags env s).ending ≠ .returned none := by
    rw [hrun]
    simp
  obtain ⟨h1, h2, h3, h4⟩ := parseFlags_of_not_nil env s hne
  rw [h1, h2, h3, h4, hrun]
  simp

/-- C2, at a concrete command line that sets `port` to a string that is not a
number and asks for help. -/
theorem parseFlags_help_exits_witness :
    (parseFlags (sampleEnv [("port", "ab"), ("help", "true")])
        ⟨defaultConf, [hostOpt, portOpt], none⟩).ending = .exited 2 ∧
    (parseFlags (sampleEnv [("port", "ab"), ("help", "true")])
        ⟨defaultConf, [hostOpt, portOpt], none⟩).calls = [] ∧
    (parseFlags (sampleEnv [("port", "ab"), ("help", "true")])
        ⟨defaultConf, [hostOpt, portOpt], none⟩).s.allOpts = [hostOpt, portOpt] ∧
    (parseFlags (sampleEnv [("port", "ab"), ("help", "true")])
        ⟨defaultConf, [hostOpt, portOpt], none⟩).s.conf = defaultConf ∧
    (parseFlags (sampleEnv [("port", "ab"), ("help", "true")])
        ⟨defaultConf, [hostOpt, portOpt], none⟩).s.flagSet =
      some ⟨"/usr/bin/app", false,
        [⟨"host", "", "the host", .stringValue "localhost", false⟩,
          ⟨"port", "p", "the port", .stringValue "ab", true⟩,
          ⟨"help", "h", "print this help menu", .boolValue true, true⟩]⟩ ∧
    (parseFlags (sampleEnv [("port", "ab"), ("help", "true")])
        ⟨defaultConf, [hostOpt, portOpt], none⟩).stdout =
      [if defaultConf.HelpMessage = "" then "Usage of " ++ "app" ++ ":"
        else defaultConf.HelpMessage,
       "host\nport\nhelp"] :=
  parseFlags_help_exits (sampleEnv [("port", "ab"), ("help", "true")])
    ⟨defaultConf, [hostOpt, portOpt], none⟩
    ⟨"/usr/bin/app", false,
      [⟨"host", "", "the host", .stringValue "localhost", false⟩,
        ⟨"port", "p", "the port", .stringValue "8080", false⟩,
        ⟨"help", "h", "print this help menu", .boolValue false, false⟩]⟩
    ⟨"/usr/bin/app", false,
      [⟨"host", "", "the host", .stringValue "localhost", false⟩,
        ⟨"port", "p", "the port", .stringValue "ab", true⟩,
        ⟨"help", "h", "print this help menu", .boolValue true, true⟩]⟩
    rfl (by decide) (by decide) (by decide)

/-! ## Claims on `initFlags` -/

/-- C5: once `initFlags` has returned, with or without an error, the setup holds a
flag set, and on every setup that holds that flag set a later call of `initFlags`
returns nil and changes nothing, whatever the command line is then; `parseFlags` and
`lookupConfigFileFlag` keep that flag set, print nothing and do not exit. -/
theorem initFlags_once (env : Env) (s : setup) (e : Option String)
    (h : (initFlags env s).ending = .returned e) :
    ∃ flagSet, (initFlags env s).s.flagSet = some flagSet ∧
      ∀ (env2 : Env) (s2 : setup) (configOpt : option), s2.flagSet = some flagSet →
        initFlags env2 s2 = ⟨s2, [], [], .returned none⟩ ∧
        (parseFlags env2 s2).s.flagSet = some flagSet ∧
        (parseFlags env2 s2).s.conf = s2.conf ∧
        (parseFlags env2 s2).stdout = [] ∧
        (∀ code, (parseFlags env2 s2).ending ≠ .exited code) ∧
        (lookupConfigFileFlag env2 s2 configOpt).s = s2 ∧
        (lookupConfigFileFlag env2 s2 configOpt).stdout = [] ∧
        (∀ code, (lookupConfigFileFlag env2 s2 configOpt).ending ≠ .exited code) := by
  obtain ⟨flagSet, hfs⟩ := initFlags_returned env s e h
  refine ⟨flagSet, hfs, ?_⟩
  intro env2 s2 configOpt h2
  have hc := initFlags_cached env2 s2 flagSet h2
  have hc2 : initFlags env2 s2 = ⟨{ s2 with flagSet := some flagSet }, [], [], .returned none⟩ := by
    rw [hc, ← h2]
  have hp := parseFlags_of_nil env2 s2 flagSet hc2
  refine ⟨hc, by rw [hp], by rw [hp], by rw [hp], ?_, ?_, ?_, ?_⟩
  · intro code
    rw [hp]
    exact flagLoop_not_exited env2 flagSet s2.allOpts code
  · unfold lookupConfigFileFlag
    rw [hc]
    simp only [h2]
    cases flagSet.Lookup configOpt.id <;> rfl
  · unfold lookupConfigFileFlag
    rw [hc]
    simp only [h2]
    cases flagSet.Lookup configOpt.id <;> rfl
  · intro code
    unfold lookupConfigFileFlag
    rw [hc]
    simp only [h2]
    cases flagSet.Lookup configOpt.id <;> simp

/-- C5, at a concrete first call, which returns the error of an unknown flag. -/
theorem initFlags_once_witness :
    ∃ flagSet, (initFlags (sampleEnv [("nope", "1")])
        ⟨defaultConf, [hostOpt], none⟩).s.flagSet = some flagSet ∧
      ∀ (env2 : Env) (s2 : setup) (configOpt : option), s2.flagSet = some flagSet →
        initFlags env2 s2 = ⟨s2, [], [], .returned none⟩ ∧
        (parseFlags env2 s2).s.flagSet = some flagSet ∧
        (parseFlags env2 s2).s.conf = s2.conf ∧
        (parseFlags env2 s2).stdout = [] ∧
        (∀ code, (parseFlags env2 s2).ending ≠ .exited code) ∧
        (lookupConfigFileFlag env2 s2 configOpt).s = s2 ∧
        (lookupConfigFileFlag env2 s2 configOpt).stdout = [] ∧
        (∀ code, (lookupConfigFileFlag env2 s2 configOpt).ending ≠ .exited code) :=
  initFlags_once (sampleEnv [("nope", "1")]) ⟨defaultConf, [hostOpt], none⟩
    (some "unknown flag: nope") (by decide)

/-- C6: the code does not do what the claim says.  With `HelpDisable` set, no
option named `help` and a command line that parses, no help flag is registered, and
`initFlags` faults on reading `Changed` through the `nil` that `Lookup("help")`
yields; `parseFlags` and `lookupConfigFileFlag` fault with it. -/
theorem initFlags_helpDisable_faults :
    (createFlagSet (sampleEnv [("host", "example.org")])
        ⟨⟨true, "", ""⟩, [hostOpt], none⟩).map (fun flagSet => flagSet.Lookup "help") =
      .ok none ∧
    ((createFlagSet (sampleEnv [("host", "example.org")])
        ⟨⟨true, "", ""⟩, [hostOpt], none⟩).map
          (fun flagSet => (flagSet.Parse (sampleEnv [("host", "example.org")])
            [("host", "example.org")]).2)) = .ok none ∧
    (initFlags (sampleEnv [("host", "example.org")])
        ⟨⟨true, "", ""⟩, [hostOpt], none⟩).ending = .panicked nilDereference ∧
    (parseFlags (sampleEnv [("host", "example.org")])
        ⟨⟨true, "", ""⟩, [hostOpt], none⟩).ending = .panicked nilDereference ∧
    (parseFlags (sampleEnv [("host", "example.org")])
        ⟨⟨true, "", ""⟩, [hostOpt], none⟩).s.allOpts = [hostOpt] ∧
    (lookupConfigFileFlag (sampleEnv [("host", "example.org")])
        ⟨⟨true, "", ""⟩, [hostOpt], none⟩ hostOpt).ending = .panicked nilDereference := by
  decide

/-- C8: the code does not do what the claim says.  For a byte-slice option marked
`isSlice`, `parseFlags` cuts the first and the last byte off the string given on the
command line: `hello` is passed on as `ell`, and the empty string and a string of one
byte make the slice expression fault. -/
theorem parseFlags_trims_byte_slice :
    keyOpt.isParent = false ∧ keyOpt.typ = .slice .uint8 ∧
    (parseFlags (sampleEnv [("key", "hello")]) ⟨defaultConf, [keyOpt], none⟩).calls =
      [(keyOpt, goBytes "ell")] ∧
    (parseFlags (sampleEnv [("key", "hello")]) ⟨defaultConf, [keyOpt], none⟩).s.allOpts =
      [{ keyOpt with value := .bytes (goBytes "ell") }] ∧
    (parseFlags (sampleEnv [("key", "")]) ⟨defaultConf, [keyOpt], none⟩).ending =
      .panicked sliceBounds ∧
    (parseFlags (sampleEnv [("key", "")]) ⟨defaultConf, [keyOpt], none⟩).calls = [] ∧
    (parseFlags (sampleEnv [("key", "x")]) ⟨defaultConf, [keyOpt], none⟩).ending =
      .panicked sliceBounds ∧
    (parseFlags (sampleEnv [("key", "x")]) ⟨defaultConf, [keyOpt], none⟩).calls = [] := by
  decide

/-! ## Claims on `lookupConfigFileFlag` -/

/-- C10: the code does not do what the claim says.  The flag of a nested
configuration-file option is registered under its `fullID`, here `db.config`, but
`lookupConfigFileFlag` looks it up under its `id`, here `config`: `Lookup` yields `nil`
and reading `Value` through it faults, whether the flag was given or not. -/
theorem lookupConfigFileFlag_nested_faults :
    dbConfigOpt.isParent = false ∧ dbConfigOpt.id = "config" ∧
    dbConfigOpt.fullID = "db.config" ∧
    (createFlagSet (sampleEnv []) ⟨defaultConf, [dbOpt, dbConfigOpt], none⟩).map
        (fun flagSet => flagSet.Lookup "db.config") =
      .ok (some ⟨"db.config", "", "the file", .stringValue "db.toml", false⟩) ∧
    (createFlagSet (sampleEnv []) ⟨defaultConf, [dbOpt, dbConfigOpt], none⟩).map
        (fun flagSet => flagSet.Lookup "config") = .ok none ∧
    (initFlags (sampleEnv []) ⟨defaultConf, [dbOpt, dbConfigOpt], none⟩).ending =
      .returned none ∧
    (lookupConfigFileFlag (sampleEnv []) ⟨defaultConf, [dbOpt, dbConfigOpt], none⟩
        dbConfigOpt).ending = .panicked nilDereference ∧
    (initFlags (sampleEnv [("db.config", "x.toml")])
        ⟨defaultConf, [dbOpt, dbConfigOpt], none⟩).ending = .returned none ∧
    (lookupConfigFileFlag (sampleEnv [("db.config", "x.toml")])
        ⟨defaultConf, [dbOpt, dbConfigOpt], none⟩ dbConfigOpt).ending =
      .panicked nilDereference := by
  decide

/-! ## Claims on `parseFile` -/

/-- C4: for every content of the file, `parseFile` returns an error when the
decoder named by a fixed mode fails, wrapping that decoder's reason with the path;
in the try-all mode it returns an error when JSON, YAML and TOML all fail, and that
error lists the reason of each of them; when one of them succeeds, the result is the
first success in the order JSON, YAML, TOML. -/
theorem parseFile_decoding {τ : Type} (readFile : String → Except String String)
    (dec : Decoders τ) (path content : String) (hread : readFile path = .ok content) :
    (∀ mode decoder reason, dec.named mode = some decoder → decoder content = .error reason →
      parseFile readFile dec path mode = .error (.decode path reason)) ∧
    (∀ mode decoder tree, dec.named mode = some decoder → decoder content = .ok tree →
      parseFile readFile dec path mode = .ok tree) ∧
    (∀ r1 r2 r3, dec.json content = .error r1 → dec.yaml content = .error r2 →
      dec.toml content = .error r3 →
      ∃ reasons, parseFile readFile dec path .DecoderTryAll = .error (.tryAll path reasons) ∧
        reasons.map Prod.snd = [r1, r2, r3]) ∧
    (∀ tree, dec.json content = .ok tree →
      parseFile readFile dec path .DecoderTryAll = .ok tree) ∧
    (∀ r1 tree, dec.json content = .error r1 → dec.yaml content = .ok tree →
      parseFile readFile dec path .DecoderTryAll = .ok tree) ∧
    (∀ r1 r2 tree, dec.json content = .error r1 → dec.yaml content = .error r2 →
      dec.toml content = .ok tree →
      parseFile readFile dec path .DecoderTryAll = .ok tree) ∧
    ((∃ err, parseFile readFile dec path .DecoderTryAll = .error err) ↔
      (∃ r1, dec.json content = .error r1) ∧ (∃ r2, dec.yaml content = .error r2) ∧
        ∃ r3, dec.toml content = .error r3) := by
  refine ⟨?_, ?_, ?_, ?_, ?_, ?_, ?_⟩
  · intro mode decoder reason hnamed hfail
    cases mode <;> simp only [Decoders.named, Option.some.injEq] at hnamed <;>
      first
      | (subst hnamed; simp [parseFile, hread, hfail])
      | cases hnamed
  · intro mode decoder tree hnamed hok
    cases mode <;> simp only [Decoders.named, Option.some.injEq] at hnamed <;>
      first
      | (subst hnamed; simp [parseFile, hread, hok])
      | cases hnamed
  · intro r1 r2 r3 h1 h2 h3
    exact ⟨[("json", r1), ("yaml", r2), ("toml", r3)], by simp [parseFile, hread, h1, h2, h3], rfl⟩
  · intro tree h1
    simp [parseFile, hread, h1]
  · intro r1 tree h1 h2
    simp [parseFile, hread, h1, h2]
  · intro r1 r2 tree h1 h2 h3
    simp [parseFile, hread, h1, h2, h3]
  · rcases except_cases (dec.json content) with ⟨r1, h1⟩ | ⟨t1, h1⟩
    · rcases except_cases (dec.yaml content) with ⟨r2, h2⟩ | ⟨t2, h2⟩
      · rcases except_cases (dec.toml content) with ⟨r3, h3⟩ | ⟨t3, h3⟩
        · simp [parseFile, hread, h1, h2, h3]
        · simp [parseFile, hread, h1, h2, h3]
      · simp [parseFile, hread, h1, h2]
    · simp [parseFile, hread, h1]

/-- C4, at a file that no sample decoder accepts: each fixed mode and the try-all
mode return an error. -/
theorem parseFile_decoding_witness :
    parseFile sampleReadFile sampleDecoders "/etc/app.conf" .DecoderJSON =
      .error (.decode "/etc/app.conf" "invalid character in JSON") ∧
    ∃ reasons, parseFile sampleReadFile sampleDecoders "/etc/app.conf" .DecoderTryAll =
        .error (.tryAll "/etc/app.conf" reasons) ∧
      reasons.map Prod.snd =
        ["invalid character in JSON", "yaml: cannot unmarshal", "toml: expected value"] :=
  ⟨(parseFile_decoding sampleReadFile sampleDecoders "/etc/app.conf" "&$_@" (by decide)).1
      .DecoderJSON sampleDecoders.json "invalid character in JSON" rfl (by decide),
    (parseFile_decoding sampleReadFile sampleDecoders "/etc/app.conf" "&$_@" (by decide)).2.2.1
      "invalid character in JSON" "yaml: cannot unmarshal" "toml: expected value"
      (by decide) (by decide) (by decide)⟩

end Gonfig
